import Mathlib

/-!
# CycloneDX SBOM parser (`pkg/ingestor/parser/cyclonedx/parser_cyclonedx.go`)

A shallow embedding of the CycloneDX document parser and of the graph
assertions it produces, followed by theorems about it.

Conventions of the embedding:

* Go strings are Lean strings; `strings.Split` is used by the source only with
  the one-character separators `"/"` and `":"`, so the separator is a `Char`.
* A Go map `map[string][]T` is an association list read through `mapLookup`;
  the statement `m[k] = append(m[k], v)` is `mapAppend`.  A `range` over a map
  visits every key once in an unspecified order: functions that range over a
  map take the visiting order as an argument, and `IsRange` says that an order
  is a possible one.
* A nil pointer or nil slice is `none`.  A nil dereference or an index out of
  range is a run-time panic: `Status.panic` for the methods that mutate the
  parser, `none` for the functions that only compute a value.
* The methods mutate the parser in place and return an `error`; here they
  return the parser after the call together with a `Status`.
* Functions, constants and types of packages that are not part of this file
  (`asmhelpers`, `common`, `processor`, `encoding/json`, `encoding/xml`,
  `strings.ToLower`) are the fields of `Env`, except `common.CreateTopLevelIsDeps`,
  which is a definition written after its description.
* `reflect.DeepEqual` on slices of pointers to records compares the records, so it
  is equality of lists of records; a slice stored in a map is never nil.
-/

namespace CycloneDX

/-! ## Strings -/

/-- Splitting of a character list around every occurrence of `sep`; the result
has one more element than there are occurrences. -/
def splitChars (sep : Char) : List Char → List (List Char)
  | [] => [[]]
  | c :: cs =>
    if c = sep then [] :: splitChars sep cs
    else
      match splitChars sep cs with
      | [] => [[c]]
      | seg :: segs => (c :: seg) :: segs

/-- Go `strings.Split(s, sep)` for a one-character separator. -/
def Split (s : String) (sep : Char) : List String :=
  (splitChars sep s.data).map String.mk

/-! ## Go maps -/

/-- A Go `map[string]α`, as an association list. -/
abbrev GoMap (α : Type) := List (String × α)

/-- The map read `v, ok := m[k]`. -/
def mapLookup {α : Type} (m : GoMap α) (k : String) : Option α :=
  match m with
  | [] => none
  | (k', v) :: rest => if k' = k then some v else mapLookup rest k

/-- The statement `m[k] = append(m[k], v)`. -/
def mapAppend {α : Type} (m : GoMap (List α)) (k : String) (v : α) : GoMap (List α) :=
  match m with
  | [] => [(k, [v])]
  | (k', vs) :: rest =>
    if k' = k then (k', vs ++ [v]) :: rest else (k', vs) :: mapAppend rest k v

/-- The keys of a map, each once. -/
def mapKeys {α : Type} (m : GoMap α) : List String :=
  (m.map Prod.fst).dedup

/-- The list `order` is an order in which `for id := range m` may visit the keys of `m`. -/
def IsRange {α : Type} (m : GoMap α) (order : List String) : Prop :=
  order.Perm (mapKeys m)

instance {α : Type} (m : GoMap α) (order : List String) : Decidable (IsRange m order) := by
  unfold IsRange; infer_instance

/-! ## The decoded document (`cyclonedx-go`) and the source document (`processor`) -/

/-- The Go type `cdx.ComponentType`, a string. -/
abbrev ComponentType := String

/-- The constant `cdx.ComponentTypeContainer`. -/
def ComponentTypeContainer : ComponentType := "container"

/-- The constant `cdx.ComponentTypeFile`. -/
def ComponentTypeFile : ComponentType := "file"

/-- The constant `cdx.ComponentTypeOS`. -/
def ComponentTypeOS : ComponentType := "operating-system"

/-- The Go type `cdx.Hash`. -/
structure Hash where
  Algorithm : String
  Value : String
  deriving DecidableEq

/-- The fields of `cdx.Component` that the parser reads (`CType` is the field `Type`). -/
structure Component where
  BOMRef : String
  CType : ComponentType
  Name : String
  Version : String
  PackageURL : String
  Hashes : Option (List Hash)
  deriving DecidableEq

/-- The Go type `cdx.Metadata`: the top-level component is a pointer. -/
structure Metadata where
  Component : Option Component
  deriving DecidableEq

/-- The Go type `cdx.Dependency`: a reference and the references it depends on. -/
structure Dependency where
  Ref : String
  Dependencies : Option (List String)
  deriving DecidableEq

/-- The fields of `cdx.BOM` that the parser reads; all three are pointers. -/
structure BOM where
  Metadata : Option Metadata
  Components : Option (List Component)
  Dependencies : Option (List Dependency)
  deriving DecidableEq

/-- The Go type `processor.Document`: the payload and its format tag. -/
structure Document where
  Blob : List Nat
  Format : String
  deriving DecidableEq

/-! ## Graph assertions (`model`, `assembler`) -/

/-- The Go type `model.ArtifactInputSpec`. -/
structure ArtifactInputSpec where
  Algorithm : String
  Digest : String
  deriving DecidableEq

/-- The Go type `assembler.IsOccurrenceIngest`; `Justification` is the field of the
nested `IsOccurrence` record. -/
structure IsOccurrenceIngest (P : Type) where
  Pkg : P
  Artifact : ArtifactInputSpec
  Justification : String
  deriving DecidableEq

/-- The Go type `assembler.IsDependencyIngest`: the package, the package it depends
on, and the justification of the nested `IsDependency` record. -/
structure IsDependencyIngest (P : Type) where
  Pkg : P
  DepPkg : P
  Justification : String
  deriving DecidableEq

/-- The Go type `assembler.IngestPredicates`, restricted to the three collections the
parser fills. -/
structure IngestPredicates (Pkg SBOM : Type) where
  IsDependency : List (IsDependencyIngest Pkg)
  HasSBOM : List SBOM
  IsOccurrence : List (IsOccurrenceIngest Pkg)
  deriving DecidableEq

/-- The Go type `common.IdentifierStrings`, restricted to the field the parser fills. -/
structure IdentifierStrings where
  PurlStrings : List String
  deriving DecidableEq

/-! ## The collaborators -/

/-- What the parser calls outside of its own file.  `Pkg` is `model.PkgInputSpec` and
`SBOM` is `assembler.HasSBOMIngest`.  A function returning `(value, error)` returns an
`Except`, the error being its message. -/
structure Env (Pkg SBOM : Type) where
  /-- The function `asmhelpers.PurlToPkg`. -/
  PurlToPkg : String → Except String Pkg
  /-- The function `asmhelpers.GuacPkgPurl`, at a name and a non-nil version. -/
  GuacPkgPurl : String → String → String
  /-- The function `asmhelpers.GuacFilePurl`, at an algorithm, a digest and a non-nil
  file name. -/
  GuacFilePurl : String → String → String → String
  /-- The constant `asmhelpers.PurlFilesGuac`. -/
  PurlFilesGuac : String
  /-- The function `strings.ToLower`. -/
  ToLower : String → String
  /-- The constant `processor.FormatJSON`. -/
  FormatJSON : String
  /-- The constant `processor.FormatXML`. -/
  FormatXML : String
  /-- The call `json.Unmarshal(blob, &bom)` on an empty `bom`. -/
  jsonUnmarshal : List Nat → Except String BOM
  /-- The call `xml.Unmarshal(blob, &bom)` on an empty `bom`. -/
  xmlUnmarshal : List Nat → Except String BOM
  /-- The function `common.CreateTopLevelHasSBOM`. -/
  CreateTopLevelHasSBOM : Pkg → Option Document → SBOM
  /-- The function `common.GetIsDep`, at a package, the related packages, the related
  files and a justification; it returns a pointer, which may be nil, and an error. -/
  GetIsDep : Pkg → List Pkg → List Pkg → String → Except String (Option (IsDependencyIngest Pkg))

/-! ## The parser -/

/-- How a call of a method of the parser ends. -/
inductive Status where
  | ok
  | error (msg : String)
  | panic
  deriving DecidableEq

/-- The Go type `cyclonedxParser`. -/
structure cyclonedxParser (Pkg : Type) where
  doc : Option Document
  packagePackages : GoMap (List Pkg)
  packageArtifacts : GoMap (List ArtifactInputSpec)
  identifierStrings : IdentifierStrings
  cdxBom : Option BOM
  deriving DecidableEq

variable {Pkg SBOM : Type}

/-- The constructor `NewCycloneDXParser`. -/
def NewCycloneDXParser : cyclonedxParser Pkg :=
  { doc := none
    packagePackages := []
    packageArtifacts := []
    identifierStrings := ⟨[]⟩
    cdxBom := none }

/-- The function `guacCDXPkgPurl`. -/
def guacCDXPkgPurl (componentName version tag : String) : String :=
  if version ≠ "" ∧ tag ≠ "" then
    "pkg:guac/cdx/" ++ componentName ++ "@" ++ version ++ "?tag=" ++ tag
  else if version ≠ "" then
    "pkg:guac/cdx/" ++ componentName ++ "@" ++ version
  else if tag ≠ "" then
    "pkg:guac/cdx/" ++ componentName ++ "?tag=" ++ tag
  else
    "pkg:guac/cdx/" ++ componentName

/-- The function `guacCDXFilePurl`; `none` when `splitVersion[1]` is out of range. -/
def guacCDXFilePurl (env : Env Pkg SBOM) (fileName version : String) : Option String :=
  if version ≠ "" then
    match Split version ':' with
    | s0 :: s1 :: _ => some (env.GuacFilePurl s0 s1 fileName)
    | _ => none
  else
    some (env.PurlFilesGuac ++ fileName)

/-- Lines 79 to 102 of `getTopLevelPackage`: the identifier of a container image
without a declared package URL; `none` when an index is out of range. -/
def containerPurl (name version : String) : Option String :=
  let splitImage := Split name '/'
  match splitImage.getLast? with
  | none => none
  | some last =>
    let splitTag := Split last ':'
    let repositoryURL : Option String :=
      match splitImage, splitTag with
      | [s0, s1, _], t0 :: _ => some (s0 ++ "/" ++ s1 ++ "/" ++ t0)
      | [_, _, _], [] => none
      | [s0, _], t0 :: _ => some (s0 ++ "/" ++ t0)
      | [_, _], [] => none
      | [s0], _ => some s0
      | _, _ => some ""
    let tag : String :=
      match splitTag with
      | [_, t1] => t1
      | _ => ""
    match repositoryURL with
    | none => none
    | some repositoryURL =>
      if repositoryURL ≠ "" then some (guacCDXPkgPurl repositoryURL version tag)
      else some (guacCDXPkgPurl name version tag)

/-- Lines 76 to 109 of `getTopLevelPackage`: the string that `getTopLevelPackage`
passes to `PurlToPkg` for the top-level component. -/
def topLevelPurl (env : Env Pkg SBOM) (comp : Component) : Option String :=
  if comp.PackageURL = "" then
    if comp.CType = ComponentTypeContainer then
      containerPurl comp.Name comp.Version
    else if comp.CType = ComponentTypeFile then
      guacCDXFilePurl env comp.Name comp.Version
    else
      some (guacCDXPkgPurl comp.Name comp.Version "")
  else
    some comp.PackageURL

/-- Lines 140 to 147 of `getPackages`: the string that `getPackages` passes to
`PurlToPkg` for a component of the component list. -/
def componentPurl (env : Env Pkg SBOM) (comp : Component) : Option String :=
  if comp.PackageURL = "" then
    if comp.CType = ComponentTypeFile then
      guacCDXFilePurl env comp.Name comp.Version
    else
      some (env.GuacPkgPurl comp.Name comp.Version)
  else
    some comp.PackageURL

/-- The artifact made of one checksum (lines 122 to 125 and 158 to 161). -/
def hashArtifact (env : Env Pkg SBOM) (checksum : Hash) : ArtifactInputSpec :=
  { Algorithm := env.ToLower checksum.Algorithm, Digest := checksum.Value }

/-- The loop over the checksums of a component (lines 120 to 128 and 156 to 164). -/
def addHashes (env : Env Pkg SBOM) (artifacts : GoMap (List ArtifactInputSpec))
    (bomRef : String) (hashes : Option (List Hash)) : GoMap (List ArtifactInputSpec) :=
  match hashes with
  | none => artifacts
  | some hs => hs.foldl (fun m checksum => mapAppend m bomRef (hashArtifact env checksum)) artifacts

/-- The method `getTopLevelPackage`. -/
def getTopLevelPackage (env : Env Pkg SBOM) (c : cyclonedxParser Pkg) (cdxBom : BOM) :
    cyclonedxParser Pkg × Status :=
  match cdxBom.Metadata with
  | none => (c, Status.panic)
  | some metadata =>
    match metadata.Component with
    | none => (c, Status.ok)
    | some comp =>
      match topLevelPurl env comp with
      | none => (c, Status.panic)
      | some purl =>
        match env.PurlToPkg purl with
        | Except.error err => (c, Status.error err)
        | Except.ok topPackage =>
          ({ c with
              identifierStrings := ⟨c.identifierStrings.PurlStrings ++ [purl]⟩
              packagePackages := mapAppend c.packagePackages comp.BOMRef topPackage
              packageArtifacts := addHashes env c.packageArtifacts comp.BOMRef comp.Hashes },
           Status.ok)

/-- The body of the loop of `getPackages` over the component list. -/
def getPackagesLoop (env : Env Pkg SBOM) :
    List Component → cyclonedxParser Pkg → cyclonedxParser Pkg × Status
  | [], c => (c, Status.ok)
  | comp :: rest, c =>
    if comp.CType ≠ ComponentTypeOS then
      match componentPurl env comp with
      | none => (c, Status.panic)
      | some purl =>
        match env.PurlToPkg purl with
        | Except.error err => (c, Status.error err)
        | Except.ok pkg =>
          getPackagesLoop env rest
            { c with
                packagePackages := mapAppend c.packagePackages comp.BOMRef pkg
                identifierStrings := ⟨c.identifierStrings.PurlStrings ++ [comp.PackageURL]⟩
                packageArtifacts := addHashes env c.packageArtifacts comp.BOMRef comp.Hashes }
    else
      getPackagesLoop env rest c

/-- The method `getPackages`. -/
def getPackages (env : Env Pkg SBOM) (c : cyclonedxParser Pkg) (cdxBom : BOM) :
    cyclonedxParser Pkg × Status :=
  match cdxBom.Components with
  | none => (c, Status.ok)
  | some comps => getPackagesLoop env comps c

/-- The function `parseCycloneDXBOM`. -/
def parseCycloneDXBOM (env : Env Pkg SBOM) (doc : Document) : Except String BOM :=
  if doc.Format = env.FormatJSON then
    env.jsonUnmarshal doc.Blob
  else if doc.Format = env.FormatXML then
    env.xmlUnmarshal doc.Blob
  else
    Except.error ("unrecognized CycloneDX format " ++ doc.Format)

/-- The method `Parse`. -/
def Parse (env : Env Pkg SBOM) (c : cyclonedxParser Pkg) (doc : Document) :
    cyclonedxParser Pkg × Status :=
  let c := { c with doc := some doc }
  match parseCycloneDXBOM env doc with
  | Except.error err => (c, Status.error ("failed to parse cyclonedx BOM: " ++ err))
  | Except.ok cdxBom =>
    let c := { c with cdxBom := some cdxBom }
    match getTopLevelPackage env c cdxBom with
    | (c, Status.ok) => getPackages env c cdxBom
    | r => r

/-- The method `GetIdentifiers`. -/
def GetIdentifiers (c : cyclonedxParser Pkg) : IdentifierStrings :=
  c.identifierStrings

/-- The method `getPackageElement`; `none` is the nil slice. -/
def getPackageElement (c : cyclonedxParser Pkg) (elementID : String) : Option (List Pkg) :=
  mapLookup c.packagePackages elementID

/-- Modelled from the spec: `common.CreateTopLevelIsDeps` is not among the sources.
The spec (4.4, item 2): one assertion per every other indexed package, declaring that
the top-level package depends on it, labelled with the heuristic justification;
self-reference to the top level is excluded by comparison against the top-level
record.  Records are values here, so the comparison is equality of records.  `order`
is the order in which the keys of `packages` are visited; the argument `files` is nil
at the only call and is left out. -/
def CreateTopLevelIsDeps [DecidableEq Pkg] (order : List String) (toplevel : Pkg)
    (packages : GoMap (List Pkg)) (justification : String) : List (IsDependencyIngest Pkg) :=
  order.flatMap fun id =>
    ((mapLookup packages id).getD []).filterMap fun packNode =>
      if packNode = toplevel then none
      else some { Pkg := toplevel, DepPkg := packNode, Justification := justification }

/-- Lines 206 to 218 of `GetPredicates`: the is-occurrence assertions, the keys of
`packagePackages` being visited in the order `order`. -/
def occurrences (order : List String) (c : cyclonedxParser Pkg) :
    List (IsOccurrenceIngest Pkg) :=
  order.flatMap fun id =>
    ((mapLookup c.packagePackages id).getD []).flatMap fun pkg =>
      ((mapLookup c.packageArtifacts id).getD []).map fun art =>
        { Pkg := pkg, Artifact := art, Justification := "cdx package with checksum" }

/-- Lines 224 to 248 of `GetPredicates`: the is-dependency assertions of the
dependency section; `toplevel` is the slice of line 197. -/
def dependencyEdges [DecidableEq Pkg] (env : Env Pkg SBOM) (c : cyclonedxParser Pkg)
    (toplevel : Option (List Pkg)) (dependencies : List Dependency) :
    List (IsDependencyIngest Pkg) :=
  dependencies.flatMap fun deps =>
    match mapLookup c.packagePackages deps.Ref with
    | none => []
    | some currPkg =>
      if some currPkg = toplevel then []
      else
        match deps.Dependencies with
        | none => []
        | some targets =>
          targets.flatMap fun depPkg =>
            match mapLookup c.packagePackages depPkg with
            | none => []
            | some depPkgs =>
              currPkg.filterMap fun packNode =>
                match env.GetIsDep packNode depPkgs [] "CDX BOM Dependency" with
                | Except.error _ => none
                | Except.ok p => p

/-- The method `GetPredicates`; `none` is a run-time panic.  `order₁` is the order in
which `CreateTopLevelIsDeps` visits the keys of `packagePackages`, `order₂` the order
in which the loop of line 206 does. -/
def GetPredicates [DecidableEq Pkg] (env : Env Pkg SBOM) (order₁ order₂ : List String)
    (c : cyclonedxParser Pkg) : Option (IngestPredicates Pkg SBOM) :=
  match c.cdxBom with
  | none => none
  | some cdxBom =>
    match cdxBom.Metadata with
    | none => none
    | some metadata =>
      match metadata.Component with
      | none => none
      | some comp =>
        let toplevel := getPackageElement c comp.BOMRef
        match toplevel with
        | some [] => none
        | _ =>
          let heuristic : List (IsDependencyIngest Pkg) × List SBOM :=
            match toplevel with
            | some (top :: _) =>
              (CreateTopLevelIsDeps order₁ top c.packagePackages
                  "top-level package GUAC heuristic connecting to each file/package",
               [env.CreateTopLevelHasSBOM top c.doc])
            | _ => ([], [])
          match cdxBom.Dependencies with
          | none =>
            some { IsDependency := heuristic.1
                   HasSBOM := heuristic.2
                   IsOccurrence := occurrences order₂ c }
          | some dependencies =>
            some { IsDependency := heuristic.1 ++ dependencyEdges env c toplevel dependencies
                   HasSBOM := heuristic.2
                   IsOccurrence := occurrences order₂ c }

/-! ## Vocabulary of the statements -/

/-- The part of `s` before its first colon; all of `s` when it has none. -/
def upToFirstColon (s : String) : String :=
  String.mk (s.data.takeWhile fun ch => decide (ch ≠ ':'))

/-- The part of `s` after its first colon; empty when it has none. -/
def afterFirstColon (s : String) : String :=
  String.mk (s.data.dropWhile fun ch => decide (ch ≠ ':')).tail

/-- The image tag of a last path segment: what follows the colon when the segment has
exactly one colon, the empty string otherwise. -/
def imageTag (last : String) : String :=
  if last.data.count ':' = 1 then afterFirstColon last else ""

/-- An instance of the collaborators, for evaluating the parser on concrete
documents: a package record is its identifier string, every string starting with
`pkg:` is accepted, and both decoders return `bom` whatever the payload. -/
def exampleEnv (bom : BOM) : Env String (String × Option Document) where
  PurlToPkg := fun purl =>
    if "pkg:".data.isPrefixOf purl.data then Except.ok purl
    else Except.error ("invalid package URL " ++ purl)
  GuacPkgPurl := fun name version => "pkg:guac/pkg/" ++ name ++ "@" ++ version
  GuacFilePurl := fun alg digest fileName => "pkg:guac/files/" ++ alg ++ ":" ++ digest ++ "#" ++ fileName
  PurlFilesGuac := "pkg:guac/files/"
  ToLower := fun str => String.mk (str.data.map Char.toLower)
  FormatJSON := "json"
  FormatXML := "xml"
  jsonUnmarshal := fun _ => Except.ok bom
  xmlUnmarshal := fun _ => Except.ok bom
  CreateTopLevelHasSBOM := fun pkg doc => (pkg, doc)
  GetIsDep := fun pkg related _ justification =>
    match related with
    | [] => Except.ok none
    | dep :: _ => Except.ok (some { Pkg := pkg, DepPkg := dep, Justification := justification })

/-- A decoded document without any part. -/
def emptyBOM : BOM :=
  { Metadata := none, Components := none, Dependencies := none }

/-- A source document in the format that `exampleEnv` decodes. -/
def exampleDoc : Document :=
  { Blob := [], Format := "json" }

/-- A decoded document: a top-level application that declares its package URL and one
library that declares none. -/
def undeclaredLibraryBOM : BOM :=
  { Metadata := some ⟨some
      { BOMRef := "top", CType := "application", Name := "app", Version := "2.0",
        PackageURL := "pkg:generic/app@2.0", Hashes := none }⟩
    Components := some
      [{ BOMRef := "lib", CType := "library", Name := "lib", Version := "1.0",
         PackageURL := "", Hashes := none }]
    Dependencies := none }

/-- The decoded document `bom` without the operating-system components of its
component list. -/
def removeOS (bom : BOM) : BOM :=
  { bom with
      Components := bom.Components.map fun comps =>
        comps.filter fun comp => decide (comp.CType ≠ ComponentTypeOS) }

/-- The artifacts indexed under `ref`; none when `ref` is not a key. -/
def artifactsAt (c : cyclonedxParser Pkg) (ref : String) : List ArtifactInputSpec :=
  (mapLookup c.packageArtifacts ref).getD []

/-- The packages indexed under `ref`; none when `ref` is not a key. -/
def packagesAt (c : cyclonedxParser Pkg) (ref : String) : List Pkg :=
  (mapLookup c.packagePackages ref).getD []

/-- A decoded document whose component list holds one library with a checksum and
one operating system sharing no reference with it. -/
def withOSBOM : BOM :=
  { Metadata := some ⟨some
      { BOMRef := "top", CType := "application", Name := "app", Version := "2.0",
        PackageURL := "pkg:generic/app@2.0", Hashes := none }⟩
    Components := some
      [{ BOMRef := "os", CType := ComponentTypeOS, Name := "debian", Version := "12",
         PackageURL := "", Hashes := some [⟨"SHA-256", "00ff"⟩] },
       { BOMRef := "lib", CType := "library", Name := "lib", Version := "1.0",
         PackageURL := "pkg:generic/lib@1.0",
         Hashes := some [⟨"SHA-256", "ABcd"⟩, ⟨"MD5", "12ef"⟩] }]
    Dependencies := some [⟨"lib", some ["os"]⟩, ⟨"os", some ["lib"]⟩] }

/-- A decoded document whose only listed component declares the package URL of the
top-level component, under another reference. -/
def sameIdentityBOM : BOM :=
  { Metadata := some ⟨some
      { BOMRef := "top", CType := "application", Name := "app", Version := "2.0",
        PackageURL := "pkg:generic/app@2.0", Hashes := none }⟩
    Components := some
      [{ BOMRef := "dup", CType := "library", Name := "app", Version := "2.0",
         PackageURL := "pkg:generic/app@2.0", Hashes := none }]
    Dependencies := none }

/-- The heuristic is-dependency assertions of line 202, `ref` being the reference of
the top-level component. -/
def heuristicEdges [DecidableEq Pkg] (order : List String) (c : cyclonedxParser Pkg)
    (ref : String) : List (IsDependencyIngest Pkg) :=
  match getPackageElement c ref with
  | some (top :: _) =>
    CreateTopLevelIsDeps order top c.packagePackages
      "top-level package GUAC heuristic connecting to each file/package"
  | _ => []

/-- The assertions of lines 235 to 244 for the packages `currPkg` of one source and the
packages `depPkgs` of one target: what `GetIsDep` returns for each package of the
source, when it returns an assertion and no error. -/
def pairEdges (env : Env Pkg SBOM) (currPkg depPkgs : List Pkg) :
    List (IsDependencyIngest Pkg) :=
  currPkg.filterMap fun packNode =>
    match env.GetIsDep packNode depPkgs [] "CDX BOM Dependency" with
    | Except.error _ => none
    | Except.ok p => p

/-- The dependency section without the entries whose source is not a key of
`packagePackages` and without the targets that are not keys of `packagePackages`. -/
def resolvableDependencies (c : cyclonedxParser Pkg) (dependencies : List Dependency) :
    List Dependency :=
  (dependencies.filter fun deps => (mapLookup c.packagePackages deps.Ref).isSome).map fun deps =>
    { deps with
        Dependencies := deps.Dependencies.map fun targets =>
          targets.filter fun depPkg => (mapLookup c.packagePackages depPkg).isSome }

/-- A decoded document whose metadata declares no top-level component. -/
def noTopLevelBOM : BOM :=
  { Metadata := some ⟨none⟩
    Components := some
      [{ BOMRef := "lib", CType := "library", Name := "lib", Version := "1.0",
         PackageURL := "pkg:generic/lib@1.0", Hashes := none }]
    Dependencies := none }

/-- A decoded document whose top-level component is a file with a version without a
colon and without a declared package URL. -/
def fileVersionBOM : BOM :=
  { Metadata := some ⟨some
      { BOMRef := "top", CType := ComponentTypeFile, Name := "/home/work/test", Version := "1.0",
        PackageURL := "", Hashes := none }⟩
    Components := none
    Dependencies := none }

/-- A decoded document in which two listed components share the reference `t`, with a
dependency of `s` on `t`. -/
def sharedTargetBOM : BOM :=
  { Metadata := some ⟨some
      { BOMRef := "top", CType := "application", Name := "app", Version := "2.0",
        PackageURL := "pkg:generic/app@2.0", Hashes := none }⟩
    Components := some
      [{ BOMRef := "s", CType := "library", Name := "s", Version := "1.0",
         PackageURL := "pkg:generic/s@1.0", Hashes := none },
       { BOMRef := "t", CType := "library", Name := "t1", Version := "1.0",
         PackageURL := "pkg:generic/t1@1.0", Hashes := none },
       { BOMRef := "t", CType := "library", Name := "t2", Version := "1.0",
         PackageURL := "pkg:generic/t2@1.0", Hashes := none }]
    Dependencies := some [⟨"s", some ["t"]⟩] }

/-- A decoded document whose second listed component declares a string that
`exampleEnv` does not accept as a package URL. -/
def failingListedBOM : BOM :=
  { Metadata := some ⟨some
      { BOMRef := "top", CType := "application", Name := "app", Version := "2.0",
        PackageURL := "pkg:generic/app@2.0", Hashes := none }⟩
    Components := some
      [{ BOMRef := "lib", CType := "library", Name := "lib", Version := "1.0",
         PackageURL := "pkg:generic/lib@1.0", Hashes := some [⟨"MD5", "12ef"⟩] },
       { BOMRef := "bad", CType := "library", Name := "bad", Version := "1.0",
         PackageURL := "not-a-purl", Hashes := none },
       { BOMRef := "late", CType := "library", Name := "late", Version := "1.0",
         PackageURL := "pkg:generic/late@1.0", Hashes := none }]
    Dependencies := none }

/-- A decoded document whose dependency section has one entry, with the top-level
reference as source. -/
def topLevelSourceBOM : BOM :=
  { withOSBOM with Dependencies := some [⟨"top", some ["lib"]⟩] }

/-- The entry of a key after records were appended to a map: the records of before,
`a`, followed by the appended ones, `b`. -/
def appendEntries {α : Type} (a b : Option (List α)) : Option (List α) :=
  match a, b with
  | none, b => b
  | some l, none => some l
  | some l, some l' => some (l ++ l')

/-! ## Splitting -/

theorem splitChars_ne_nil (sep : Char) (l : List Char) : splitChars sep l ≠ [] := by
  induction l with
  | nil => simp [splitChars]
  | cons c cs ih =>
    unfold splitChars
    split
    · simp
    · split <;> simp

theorem splitChars_of_not_mem (sep : Char) (l : List Char) (h : sep ∉ l) :
    splitChars sep l = [l] := by
  induction l with
  | nil => simp [splitChars]
  | cons c cs ih =>
    have hc : c ≠ sep := fun e => h (by simp [e])
    have hcs : sep ∉ cs := fun e => h (by simp [e])
    simp [splitChars, hc, ih hcs]

theorem splitChars_append_sep (sep : Char) (a b : List Char) (h : sep ∉ a) :
    splitChars sep (a ++ sep :: b) = a :: splitChars sep b := by
  induction a with
  | nil => simp [splitChars]
  | cons c cs ih =>
    have hc : c ≠ sep := fun e => h (by simp [e])
    have hcs : sep ∉ cs := fun e => h (by simp [e])
    simp [splitChars, hc, ih hcs]

theorem splitChars_length (sep : Char) (l : List Char) :
    (splitChars sep l).length = l.count sep + 1 := by
  induction l with
  | nil => simp [splitChars]
  | cons c cs ih =>
    unfold splitChars
    by_cases hc : c = sep
    · subst hc; simp [ih]
    · have hn := splitChars_ne_nil sep cs
      rw [if_neg hc, List.count_cons_of_ne (fun e => hc e.symm)]
      cases hs : splitChars sep cs with
      | nil => exact absurd hs hn
      | cons seg segs => rw [hs] at ih; simpa using ih

theorem splitChars_head (sep : Char) (l : List Char) :
    (splitChars sep l).head? = some (l.takeWhile fun ch => decide (ch ≠ sep)) := by
  induction l with
  | nil => simp [splitChars]
  | cons c cs ih =>
    unfold splitChars
    by_cases hc : c = sep
    · subst hc; simp
    · rw [if_neg hc]
      cases hs : splitChars sep cs with
      | nil => exact absurd hs (splitChars_ne_nil sep cs)
      | cons seg segs =>
        rw [hs] at ih
        simp only [List.head?_cons, Option.some.injEq] at ih
        simp [hc, ih]

theorem splitChars_one_sep (sep : Char) (l : List Char) (h : l.count sep = 1) :
    splitChars sep l =
      [l.takeWhile fun ch => decide (ch ≠ sep), (l.dropWhile fun ch => decide (ch ≠ sep)).tail] := by
  induction l with
  | nil => simp at h
  | cons c cs ih =>
    by_cases hc : c = sep
    · subst hc
      have h0 : c ∉ cs := by
        rw [List.count_cons_self] at h
        exact List.count_eq_zero.mp (by omega)
      simp [splitChars, splitChars_of_not_mem c cs h0]
    · rw [List.count_cons_of_ne (fun e => hc e.symm)] at h
      simp [splitChars, hc, ih h]

theorem Split_of_not_mem (sep : Char) (s : String) (h : sep ∉ s.data) : Split s sep = [s] := by
  simp [Split, splitChars_of_not_mem sep s.data h]

theorem Split_append_sep (sep : Char) (a b : String) (h : sep ∉ a.data) :
    Split (a ++ String.mk [sep] ++ b) sep = a :: Split b sep := by
  simp [Split, String.data_append, splitChars_append_sep sep a.data b.data h]

theorem Split_head (s : String) : ∃ rest, Split s ':' = upToFirstColon s :: rest := by
  have h := splitChars_head ':' s.data
  cases hs : splitChars ':' s.data with
  | nil => exact absurd hs (splitChars_ne_nil _ _)
  | cons seg segs =>
    rw [hs] at h
    simp only [List.head?_cons, Option.some.injEq] at h
    exact ⟨segs.map String.mk, by simp [Split, hs, upToFirstColon, h]⟩

theorem Split_tag (s : String) :
    (match Split s ':' with
      | [_, t1] => t1
      | _ => "") = imageTag s := by
  unfold imageTag
  by_cases h : s.data.count ':' = 1
  · simp [Split, splitChars_one_sep ':' s.data h, h, afterFirstColon]
  · rw [if_neg h]
    have hl : (Split s ':').length ≠ 2 := by
      simp only [Split, List.length_map, splitChars_length]; omega
    split
    · rename_i heq; rw [heq] at hl; simp at hl
    · rfl

/-! ## Identifier synthesis -/

theorem slash_append_ne_empty (a b : String) : a ++ "/" ++ b ≠ "" := by
  intro e
  have hd : (a ++ "/" ++ b).data = [] := by rw [e]
  have hslash : ("/" : String) = String.mk ['/'] := rfl
  simp [String.data_append, hslash] at hd

theorem containerPurl_three (name version s0 s1 last : String)
    (hs : Split name '/' = [s0, s1, last]) :
    containerPurl name version =
      some (guacCDXPkgPurl (s0 ++ "/" ++ s1 ++ "/" ++ upToFirstColon last) version
        (imageTag last)) := by
  obtain ⟨rest, hr⟩ := Split_head last
  have ht := Split_tag last
  have hne := slash_append_ne_empty (s0 ++ "/" ++ s1) (upToFirstColon last)
  unfold containerPurl
  rw [hs]
  dsimp only [List.getLast?, List.getLast]
  rw [ht, hr]
  dsimp only
  rw [if_pos hne]

theorem containerPurl_two (name version s0 last : String)
    (hs : Split name '/' = [s0, last]) :
    containerPurl name version =
      some (guacCDXPkgPurl (s0 ++ "/" ++ upToFirstColon last) version (imageTag last)) := by
  obtain ⟨rest, hr⟩ := Split_head last
  have ht := Split_tag last
  have hne := slash_append_ne_empty s0 (upToFirstColon last)
  unfold containerPurl
  rw [hs]
  dsimp only [List.getLast?, List.getLast]
  rw [ht, hr]
  dsimp only
  rw [if_pos hne]

theorem containerPurl_one (name version : String) (hs : Split name '/' = [name]) :
    containerPurl name version = some (guacCDXPkgPurl name version (imageTag name)) := by
  have ht := Split_tag name
  unfold containerPurl
  rw [hs]
  dsimp only [List.getLast?, List.getLast]
  rw [ht]
  split <;> rfl

/-- C1: for a top-level component of container-image type without a declared package
URL, the string `getTopLevelPackage` hands to record construction is
`guacCDXPkgPurl repo version tag`, where for a name `s1/s2/last` the repository is
`s1/s2/` followed by `last` up to its first colon, for a name `s1/last` it is `s1/`
followed by `last` up to its first colon, for a name without a slash (empty or not) it
is the name itself, and the tag is what follows the colon of the last segment when that
segment has exactly one colon, and is empty otherwise. -/
theorem topLevelPurl_container (env : Env Pkg SBOM) (comp : Component)
    (hT : comp.CType = ComponentTypeContainer) (hP : comp.PackageURL = "") :
    (∀ s1 s2 last : String, '/' ∉ s1.data → '/' ∉ s2.data → '/' ∉ last.data →
      comp.Name = s1 ++ "/" ++ s2 ++ "/" ++ last →
      topLevelPurl env comp =
        some (guacCDXPkgPurl (s1 ++ "/" ++ s2 ++ "/" ++ upToFirstColon last) comp.Version
          (imageTag last))) ∧
    (∀ s1 last : String, '/' ∉ s1.data → '/' ∉ last.data →
      comp.Name = s1 ++ "/" ++ last →
      topLevelPurl env comp =
        some (guacCDXPkgPurl (s1 ++ "/" ++ upToFirstColon last) comp.Version (imageTag last))) ∧
    ('/' ∉ comp.Name.data →
      topLevelPurl env comp =
        some (guacCDXPkgPurl comp.Name comp.Version (imageTag comp.Name))) := by
  have hslash : ("/" : String) = String.mk ['/'] := rfl
  refine ⟨?_, ?_, ?_⟩
  · intro s1 s2 last h1 h2 h3 hn
    have hs : Split comp.Name '/' = [s1, s2, last] := by
      have ha : s1 ++ "/" ++ s2 ++ "/" ++ last = s1 ++ "/" ++ (s2 ++ "/" ++ last) := by
        simp only [String.append_assoc]
      rw [hn, ha, hslash, Split_append_sep '/' s1 _ h1, Split_append_sep '/' s2 _ h2,
        Split_of_not_mem '/' last h3]
    unfold topLevelPurl
    rw [if_pos hP, if_pos hT, containerPurl_three comp.Name comp.Version s1 s2 last hs]
  · intro s1 last h1 h3 hn
    have hs : Split comp.Name '/' = [s1, last] := by
      rw [hn, hslash, Split_append_sep '/' s1 _ h1, Split_of_not_mem '/' last h3]
    unfold topLevelPurl
    rw [if_pos hP, if_pos hT, containerPurl_two comp.Name comp.Version s1 last hs]
  · intro h1
    have hs : Split comp.Name '/' = [comp.Name] := Split_of_not_mem '/' comp.Name h1
    unfold topLevelPurl
    rw [if_pos hP, if_pos hT, containerPurl_one comp.Name comp.Version hs]

/-- C1, at the name `registry.example/org/app:v1`: the repository is
`registry.example/org/app` and the tag is `v1`. -/
theorem topLevelPurl_container_witness :
    topLevelPurl (exampleEnv emptyBOM)
        { BOMRef := "top", CType := ComponentTypeContainer, Name := "registry.example/org/app:v1",
          Version := "1.0", PackageURL := "", Hashes := none } =
      some (guacCDXPkgPurl "registry.example/org/app" "1.0" "v1") :=
  (topLevelPurl_container (exampleEnv emptyBOM)
      { BOMRef := "top", CType := ComponentTypeContainer, Name := "registry.example/org/app:v1",
        Version := "1.0", PackageURL := "", Hashes := none } rfl rfl).1
    "registry.example" "org" "app:v1" (by decide) (by decide) (by decide) (by decide)

/-- C2: `guacCDXPkgPurl name version tag` is `pkg:guac/cdx/` followed by the name, then
by `@` and the version exactly when the version is not empty, then by `?tag=` and the
tag exactly when the tag is not empty. -/
theorem guacCDXPkgPurl_shapes (name version tag : String) :
    guacCDXPkgPurl name version tag =
      "pkg:guac/cdx/" ++ name ++ (if version ≠ "" then "@" ++ version else "") ++
        (if tag ≠ "" then "?tag=" ++ tag else "") := by
  unfold guacCDXPkgPurl
  by_cases hv : version = "" <;> by_cases ht : tag = "" <;>
    simp [hv, ht, String.append_assoc]

/-- C3: without a version `guacCDXFilePurl` is the file prefix followed by the file
name, and for a version `q:v` with no colon in `q` nor in `v` it is
`GuacFilePurl q v name`. -/
theorem guacCDXFilePurl_rule (env : Env Pkg SBOM) (n : String) :
    guacCDXFilePurl env n "" = some (env.PurlFilesGuac ++ n) ∧
    ∀ q v : String, ':' ∉ q.data → ':' ∉ v.data →
      guacCDXFilePurl env n (q ++ ":" ++ v) = some (env.GuacFilePurl q v n) := by
  refine ⟨by simp [guacCDXFilePurl], ?_⟩
  intro q v hq hv
  have hcolon : (":" : String) = String.mk [':'] := rfl
  have hne : q ++ ":" ++ v ≠ "" := by
    intro e
    have hd : (q ++ ":" ++ v).data = [] := by rw [e]
    simp [String.data_append, hcolon] at hd
  unfold guacCDXFilePurl
  rw [if_pos hne, hcolon, Split_append_sep ':' q v hq, Split_of_not_mem ':' v hv]

/-- C3, at the file name `/home/work` and the version `sha256:abc`. -/
theorem guacCDXFilePurl_rule_witness :
    guacCDXFilePurl (exampleEnv emptyBOM) "/home/work" ("sha256" ++ ":" ++ "abc") =
      some ((exampleEnv emptyBOM).GuacFilePurl "sha256" "abc" "/home/work") :=
  (guacCDXFilePurl_rule (exampleEnv emptyBOM) "/home/work").2 "sha256" "abc"
    (by decide) (by decide)

/-! ## Indexing of the components -/

/-- C4: for a component whose declared package URL is not empty, the string handed to
`PurlToPkg` is the declared package URL, for the top-level component and for a
component of the list alike, whatever the type, name and version: `getTopLevelPackage`
and the step of `getPackages` for a component that is not an operating system are the
call of `PurlToPkg` on the declared string followed by the indexing of its result. -/
theorem declared_purl_is_used (env : Env Pkg SBOM) (comp : Component)
    (hP : comp.PackageURL ≠ "") :
    topLevelPurl env comp = some comp.PackageURL ∧
    componentPurl env comp = some comp.PackageURL ∧
    (∀ (c : cyclonedxParser Pkg) (bom : BOM), bom.Metadata = some { Component := some comp } →
      getTopLevelPackage env c bom =
        match env.PurlToPkg comp.PackageURL with
        | Except.error err => (c, Status.error err)
        | Except.ok topPackage =>
          ({ c with
              identifierStrings := ⟨c.identifierStrings.PurlStrings ++ [comp.PackageURL]⟩
              packagePackages := mapAppend c.packagePackages comp.BOMRef topPackage
              packageArtifacts := addHashes env c.packageArtifacts comp.BOMRef comp.Hashes },
           Status.ok)) ∧
    (∀ (c : cyclonedxParser Pkg) (rest : List Component), comp.CType ≠ ComponentTypeOS →
      getPackagesLoop env (comp :: rest) c =
        match env.PurlToPkg comp.PackageURL with
        | Except.error err => (c, Status.error err)
        | Except.ok pkg =>
          getPackagesLoop env rest
            { c with
                packagePackages := mapAppend c.packagePackages comp.BOMRef pkg
                identifierStrings := ⟨c.identifierStrings.PurlStrings ++ [comp.PackageURL]⟩
                packageArtifacts := addHashes env c.packageArtifacts comp.BOMRef comp.Hashes }) := by
  have ht : topLevelPurl env comp = some comp.PackageURL := by
    unfold topLevelPurl; rw [if_neg hP]
  have hc : componentPurl env comp = some comp.PackageURL := by
    unfold componentPurl; rw [if_neg hP]
  refine ⟨ht, hc, ?_, ?_⟩
  · intro c bom hm
    unfold getTopLevelPackage
    rw [hm]
    dsimp only
    rw [ht]
  · intro c rest hos
    rw [getPackagesLoop, if_pos hos, hc]

/-- C4, at a container image that declares `pkg:oci/app@1.0`. -/
theorem declared_purl_is_used_witness :
    topLevelPurl (exampleEnv emptyBOM)
        { BOMRef := "top", CType := ComponentTypeContainer, Name := "registry.example/org/app:v1",
          Version := "1.0", PackageURL := "pkg:oci/app@1.0", Hashes := none } =
      some "pkg:oci/app@1.0" :=
  (declared_purl_is_used (exampleEnv emptyBOM)
      { BOMRef := "top", CType := ComponentTypeContainer, Name := "registry.example/org/app:v1",
        Version := "1.0", PackageURL := "pkg:oci/app@1.0", Hashes := none } (by decide)).1

/-- C5: on a document whose top-level component declares `pkg:generic/app@2.0` and whose
only listed component `lib`, version `1.0`, declares no package URL, `Parse` on a new
parser succeeds and builds the record of `lib` from the synthesized string
`pkg:guac/pkg/lib@1.0`, but the string collected for `lib` is the empty declared one. -/
theorem Parse_collects_declared_not_synthesized :
    (Parse (exampleEnv undeclaredLibraryBOM) NewCycloneDXParser exampleDoc).2 = Status.ok ∧
    componentPurl (exampleEnv undeclaredLibraryBOM)
        { BOMRef := "lib", CType := "library", Name := "lib", Version := "1.0",
          PackageURL := "", Hashes := none } = some "pkg:guac/pkg/lib@1.0" ∧
    (Parse (exampleEnv undeclaredLibraryBOM) NewCycloneDXParser exampleDoc).1.packagePackages =
      [("top", ["pkg:generic/app@2.0"]), ("lib", ["pkg:guac/pkg/lib@1.0"])] ∧
    (GetIdentifiers
        (Parse (exampleEnv undeclaredLibraryBOM) NewCycloneDXParser exampleDoc).1).PurlStrings =
      ["pkg:generic/app@2.0", ""] := by
  decide

/-! ## Maps -/

theorem mapLookup_mapAppend_self {α : Type} (m : GoMap (List α)) (k : String) (v : α) :
    mapLookup (mapAppend m k v) k = some ((mapLookup m k).getD [] ++ [v]) := by
  induction m with
  | nil => simp [mapAppend, mapLookup]
  | cons e rest ih =>
    obtain ⟨k', vs⟩ := e
    by_cases h : k' = k
    · simp [mapAppend, mapLookup, h]
    · simp [mapAppend, mapLookup, h, ih]

theorem mapLookup_mapAppend_ne {α : Type} (m : GoMap (List α)) (k k' : String) (v : α)
    (hne : k' ≠ k) : mapLookup (mapAppend m k v) k' = mapLookup m k' := by
  induction m with
  | nil => simp [mapAppend, mapLookup, Ne.symm hne]
  | cons e rest ih =>
    obtain ⟨k'', vs⟩ := e
    by_cases h : k'' = k
    · subst h
      simp [mapAppend, mapLookup, Ne.symm hne]
    · by_cases h2 : k'' = k'
      · subst h2
        simp [mapAppend, mapLookup, h]
      · simp [mapAppend, mapLookup, h, h2, ih]

theorem mapLookup_addHashes_ne (env : Env Pkg SBOM) (m : GoMap (List ArtifactInputSpec))
    (ref ref' : String) (hashes : Option (List Hash)) (hne : ref' ≠ ref) :
    mapLookup (addHashes env m ref hashes) ref' = mapLookup m ref' := by
  cases hashes with
  | none => rfl
  | some hs =>
    unfold addHashes
    dsimp only
    induction hs generalizing m with
    | nil => rfl
    | cons h rest ih =>
      rw [List.foldl_cons, ih, mapLookup_mapAppend_ne _ _ _ _ hne]

theorem mapLookup_addHashes_self (env : Env Pkg SBOM) (m : GoMap (List ArtifactInputSpec))
    (ref : String) (hashes : Option (List Hash)) :
    (mapLookup (addHashes env m ref hashes) ref).getD [] =
      (mapLookup m ref).getD [] ++ (hashes.getD []).map (hashArtifact env) := by
  cases hashes with
  | none => simp [addHashes]
  | some hs =>
    unfold addHashes
    dsimp only
    induction hs generalizing m with
    | nil => simp
    | cons h rest ih =>
      rw [List.foldl_cons, ih, mapLookup_mapAppend_self]
      simp

/-! ## The loop over the component list -/

theorem getPackagesLoop_filter (env : Env Pkg SBOM) (comps : List Component)
    (c : cyclonedxParser Pkg) :
    getPackagesLoop env comps c =
      getPackagesLoop env (comps.filter fun comp => decide (comp.CType ≠ ComponentTypeOS)) c := by
  induction comps generalizing c with
  | nil => rfl
  | cons comp rest ih =>
    by_cases h : comp.CType = ComponentTypeOS
    · rw [getPackagesLoop, if_neg (not_not.mpr h), List.filter_cons_of_neg (by simpa using h)]
      exact ih c
    · rw [List.filter_cons_of_pos (by simpa using h), getPackagesLoop, getPackagesLoop,
        if_pos h, if_pos h]
      cases componentPurl env comp with
      | none => rfl
      | some purl =>
        dsimp only
        cases env.PurlToPkg purl with
        | error err => rfl
        | ok pkg => exact ih _

theorem getPackagesLoop_frame (env : Env Pkg SBOM) (comps : List Component)
    (c : cyclonedxParser Pkg) (ref : String)
    (hall : ∀ comp ∈ comps, comp.BOMRef = ref → comp.CType = ComponentTypeOS) :
    mapLookup (getPackagesLoop env comps c).1.packagePackages ref =
        mapLookup c.packagePackages ref ∧
      mapLookup (getPackagesLoop env comps c).1.packageArtifacts ref =
        mapLookup c.packageArtifacts ref := by
  induction comps generalizing c with
  | nil => exact ⟨rfl, rfl⟩
  | cons comp rest ih =>
    have hrest : ∀ comp ∈ rest, comp.BOMRef = ref → comp.CType = ComponentTypeOS :=
      fun x hx => hall x (List.mem_cons_of_mem _ hx)
    rw [getPackagesLoop]
    by_cases h : comp.CType = ComponentTypeOS
    · rw [if_neg (not_not.mpr h)]
      exact ih c hrest
    · rw [if_pos h]
      have hne : ref ≠ comp.BOMRef := fun e => h (hall comp (List.mem_cons_self _ _) e.symm)
      cases componentPurl env comp with
      | none => exact ⟨rfl, rfl⟩
      | some purl =>
        dsimp only
        cases env.PurlToPkg purl with
        | error err => exact ⟨rfl, rfl⟩
        | ok pkg =>
          dsimp only
          have h2 := ih { c with
                packagePackages := mapAppend c.packagePackages comp.BOMRef pkg
                identifierStrings := ⟨c.identifierStrings.PurlStrings ++ [comp.PackageURL]⟩
                packageArtifacts := addHashes env c.packageArtifacts comp.BOMRef comp.Hashes }
              hrest
          rw [h2.1, h2.2]
          exact ⟨mapLookup_mapAppend_ne _ _ _ _ hne, mapLookup_addHashes_ne env _ _ _ _ hne⟩

theorem getPackagesLoop_cdxBom (env : Env Pkg SBOM) (comps : List Component)
    (c : cyclonedxParser Pkg) (b : Option BOM) :
    getPackagesLoop env comps { c with cdxBom := b } =
      ({ (getPackagesLoop env comps c).1 with cdxBom := b }, (getPackagesLoop env comps c).2) := by
  induction comps generalizing c with
  | nil => rfl
  | cons comp rest ih =>
    rw [getPackagesLoop, getPackagesLoop]
    by_cases h : comp.CType = ComponentTypeOS
    · rw [if_neg (not_not.mpr h), if_neg (not_not.mpr h)]
      exact ih c
    · rw [if_pos h, if_pos h]
      cases componentPurl env comp with
      | none => rfl
      | some purl =>
        dsimp only
        cases env.PurlToPkg purl with
        | error err => rfl
        | ok pkg =>
          dsimp only
          exact ih { c with
            packagePackages := mapAppend c.packagePackages comp.BOMRef pkg
            identifierStrings := ⟨c.identifierStrings.PurlStrings ++ [comp.PackageURL]⟩
            packageArtifacts := addHashes env c.packageArtifacts comp.BOMRef comp.Hashes }

theorem getPackagesLoop_doc (env : Env Pkg SBOM) (comps : List Component)
    (c : cyclonedxParser Pkg) :
    (getPackagesLoop env comps c).1.cdxBom = c.cdxBom ∧
      (getPackagesLoop env comps c).1.doc = c.doc := by
  induction comps generalizing c with
  | nil => exact ⟨rfl, rfl⟩
  | cons comp rest ih =>
    rw [getPackagesLoop]
    by_cases h : comp.CType = ComponentTypeOS
    · rw [if_neg (not_not.mpr h)]
      exact ih c
    · rw [if_pos h]
      cases componentPurl env comp with
      | none => exact ⟨rfl, rfl⟩
      | some purl =>
        dsimp only
        cases env.PurlToPkg purl with
        | error err => exact ⟨rfl, rfl⟩
        | ok pkg => exact ih _

theorem getPackages_cdxBom (env : Env Pkg SBOM) (c : cyclonedxParser Pkg) (bom : BOM)
    (b : Option BOM) :
    (getPackages env { c with cdxBom := b } bom).1 = { (getPackages env c bom).1 with cdxBom := b } := by
  unfold getPackages
  cases bom.Components with
  | none => rfl
  | some comps =>
    dsimp only
    rw [getPackagesLoop_cdxBom]

theorem getPackages_removeOS (env : Env Pkg SBOM) (c : cyclonedxParser Pkg) (bom : BOM) :
    getPackages env c bom = getPackages env c (removeOS bom) := by
  unfold getPackages removeOS
  cases bom.Components with
  | none => rfl
  | some comps => exact getPackagesLoop_filter env comps c

theorem GetPredicates_removeOS [DecidableEq Pkg] (env : Env Pkg SBOM) (order₁ order₂ : List String)
    (c : cyclonedxParser Pkg) (bom : BOM) (h : c.cdxBom = some bom) :
    GetPredicates env order₁ order₂ { c with cdxBom := some (removeOS bom) } =
      GetPredicates env order₁ order₂ c := by
  unfold GetPredicates
  rw [h]
  rfl

/-- C6: `getPackages` leaves the parser as it would for the same decoded document
without the operating-system components of its list; the entries of `packagePackages`
and of `packageArtifacts` under a reference that only operating-system components
carry are those of before the call, so such a reference does not become a key; and
the assertions of `GetPredicates` are those of the document without its
operating-system components. -/
theorem getPackages_skips_operating_systems [DecidableEq Pkg] (env : Env Pkg SBOM)
    (c : cyclonedxParser Pkg) (bom : BOM) :
    getPackages env c bom = getPackages env c (removeOS bom) ∧
    (∀ ref : String,
      (∀ comp ∈ bom.Components.getD [], comp.BOMRef = ref → comp.CType = ComponentTypeOS) →
      mapLookup (getPackages env c bom).1.packagePackages ref = mapLookup c.packagePackages ref ∧
      mapLookup (getPackages env c bom).1.packageArtifacts ref =
        mapLookup c.packageArtifacts ref) ∧
    (∀ order₁ order₂ : List String, c.cdxBom = some bom →
      GetPredicates env order₁ order₂ (getPackages env c bom).1 =
        GetPredicates env order₁ order₂
          (getPackages env { c with cdxBom := some (removeOS bom) } (removeOS bom)).1) := by
  refine ⟨getPackages_removeOS env c bom, ?_, ?_⟩
  · intro ref hall
    unfold getPackages
    cases hc : bom.Components with
    | none => exact ⟨rfl, rfl⟩
    | some comps =>
      rw [hc] at hall
      exact getPackagesLoop_frame env comps c ref hall
  · intro order₁ order₂ hb
    have hs : (getPackages env c bom).1.cdxBom = some bom := by
      unfold getPackages
      cases bom.Components with
      | none => exact hb
      | some comps => exact (getPackagesLoop_doc env comps c).1.trans hb
    have e : (getPackages env { c with cdxBom := some (removeOS bom) } (removeOS bom)).1 =
        { (getPackages env c bom).1 with cdxBom := some (removeOS bom) } :=
      (getPackages_cdxBom env c (removeOS bom) (some (removeOS bom))).trans
        (by rw [← getPackages_removeOS])
    rw [e, GetPredicates_removeOS env order₁ order₂ _ bom hs]

/-- C6, at a document whose list holds the operating system `os` and the library
`lib`: `os` is not a key after `getPackages`, and the assertions are those of the
document without `os`. -/
theorem getPackages_skips_operating_systems_witness :
    (mapLookup (getPackages (exampleEnv withOSBOM) NewCycloneDXParser withOSBOM).1.packagePackages
        "os" = none ∧
      mapLookup (getPackages (exampleEnv withOSBOM) NewCycloneDXParser withOSBOM).1.packageArtifacts
        "os" = none) ∧
    GetPredicates (exampleEnv withOSBOM) ["lib"] ["lib"]
        (getPackages (exampleEnv withOSBOM)
          { NewCycloneDXParser with cdxBom := some withOSBOM } withOSBOM).1 =
      GetPredicates (exampleEnv withOSBOM) ["lib"] ["lib"]
        (getPackages (exampleEnv withOSBOM)
          { NewCycloneDXParser with cdxBom := some (removeOS withOSBOM) }
          (removeOS withOSBOM)).1 :=
  ⟨(getPackages_skips_operating_systems (exampleEnv withOSBOM) NewCycloneDXParser withOSBOM).2.1
      "os" (by decide),
   (getPackages_skips_operating_systems (exampleEnv withOSBOM)
      { NewCycloneDXParser with cdxBom := some withOSBOM } withOSBOM).2.2 ["lib"] ["lib"] rfl⟩

/-- C8: when a component is indexed, as the top-level component by
`getTopLevelPackage` or as a component of the list that is not an operating system by
`getPackages`, the artifacts under its own reference are those of before followed by
one artifact per checksum, in order, with the lower-cased algorithm and the unchanged
value; the entries under the other references are unchanged, and without a checksum
list `packageArtifacts` is unchanged. -/
theorem artifacts_of_indexed_component (env : Env Pkg SBOM) (c : cyclonedxParser Pkg)
    (comp : Component) :
    (∀ (bom : BOM) (purl : String) (topPackage : Pkg),
      bom.Metadata = some { Component := some comp } → topLevelPurl env comp = some purl →
      env.PurlToPkg purl = Except.ok topPackage →
      (getTopLevelPackage env c bom).2 = Status.ok ∧
      artifactsAt (getTopLevelPackage env c bom).1 comp.BOMRef =
        artifactsAt c comp.BOMRef ++
          (comp.Hashes.getD []).map (fun h =>
            ({ Algorithm := env.ToLower h.Algorithm, Digest := h.Value } : ArtifactInputSpec)) ∧
      (∀ ref : String, ref ≠ comp.BOMRef →
        mapLookup (getTopLevelPackage env c bom).1.packageArtifacts ref =
          mapLookup c.packageArtifacts ref) ∧
      (comp.Hashes = none →
        (getTopLevelPackage env c bom).1.packageArtifacts = c.packageArtifacts)) ∧
    (∀ (rest : List Component) (purl : String) (pkg : Pkg),
      comp.CType ≠ ComponentTypeOS → componentPurl env comp = some purl →
      env.PurlToPkg purl = Except.ok pkg →
      ∃ c' : cyclonedxParser Pkg,
        getPackagesLoop env (comp :: rest) c = getPackagesLoop env rest c' ∧
        artifactsAt c' comp.BOMRef =
          artifactsAt c comp.BOMRef ++
            (comp.Hashes.getD []).map (fun h =>
              ({ Algorithm := env.ToLower h.Algorithm, Digest := h.Value } : ArtifactInputSpec)) ∧
        (∀ ref : String, ref ≠ comp.BOMRef →
          mapLookup c'.packageArtifacts ref = mapLookup c.packageArtifacts ref) ∧
        (comp.Hashes = none → c'.packageArtifacts = c.packageArtifacts)) := by
  refine ⟨?_, ?_⟩
  · intro bom purl topPackage hm hp hk
    have e : getTopLevelPackage env c bom =
        ({ c with
            identifierStrings := ⟨c.identifierStrings.PurlStrings ++ [purl]⟩
            packagePackages := mapAppend c.packagePackages comp.BOMRef topPackage
            packageArtifacts := addHashes env c.packageArtifacts comp.BOMRef comp.Hashes },
         Status.ok) := by
      unfold getTopLevelPackage
      rw [hm]
      dsimp only
      rw [hp]
      dsimp only
      rw [hk]
    rw [e]
    refine ⟨rfl, mapLookup_addHashes_self env _ _ _, ?_, ?_⟩
    · intro ref hne
      exact mapLookup_addHashes_ne env _ _ _ _ hne
    · intro hn
      dsimp only
      rw [hn]
      rfl
  · intro rest purl pkg hos hp hk
    refine ⟨{ c with
        packagePackages := mapAppend c.packagePackages comp.BOMRef pkg
        identifierStrings := ⟨c.identifierStrings.PurlStrings ++ [comp.PackageURL]⟩
        packageArtifacts := addHashes env c.packageArtifacts comp.BOMRef comp.Hashes }, ?_,
      mapLookup_addHashes_self env _ _ _, ?_, ?_⟩
    · rw [getPackagesLoop, if_pos hos, hp]
      dsimp only
      rw [hk]
    · intro ref hne
      exact mapLookup_addHashes_ne env _ _ _ _ hne
    · intro hn
      dsimp only
      rw [hn]
      rfl

/-- C8, at a top-level component with the checksums `SHA-256` and `MD5`. -/
theorem artifacts_of_indexed_component_witness :
    artifactsAt
        (getTopLevelPackage (exampleEnv emptyBOM) NewCycloneDXParser
          { Metadata := some ⟨some
              { BOMRef := "top", CType := "library", Name := "lib", Version := "1.0",
                PackageURL := "pkg:generic/lib@1.0",
                Hashes := some [⟨"SHA-256", "ABcd"⟩, ⟨"MD5", "12ef"⟩] }⟩
            Components := none, Dependencies := none }).1 "top" =
      [⟨"sha-256", "ABcd"⟩, ⟨"md5", "12ef"⟩] :=
  ((artifacts_of_indexed_component (exampleEnv emptyBOM) NewCycloneDXParser
      { BOMRef := "top", CType := "library", Name := "lib", Version := "1.0",
        PackageURL := "pkg:generic/lib@1.0",
        Hashes := some [⟨"SHA-256", "ABcd"⟩, ⟨"MD5", "12ef"⟩] }).1
    { Metadata := some ⟨some
        { BOMRef := "top", CType := "library", Name := "lib", Version := "1.0",
          PackageURL := "pkg:generic/lib@1.0",
          Hashes := some [⟨"SHA-256", "ABcd"⟩, ⟨"MD5", "12ef"⟩] }⟩
      Components := none, Dependencies := none }
    "pkg:generic/lib@1.0" "pkg:generic/lib@1.0" rfl (by decide) rfl).2.1.trans (by decide)

/-! ## The assertions -/

theorem length_flatMap_map_const {α β γ : Type} (l : List α) (r : List β) (g : α → β → γ) :
    (l.flatMap fun a => r.map (g a)).length = l.length * r.length := by
  induction l with
  | nil => simp
  | cons a rest ih =>
    rw [List.flatMap_cons, List.length_append, ih, List.length_map, List.length_cons]
    ring

theorem occurrences_length (order : List String) (c : cyclonedxParser Pkg) :
    (occurrences order c).length =
      (order.map fun id => (packagesAt c id).length * (artifactsAt c id).length).sum := by
  unfold occurrences
  rw [List.length_flatMap]
  congr 1
  apply List.map_congr_left
  intro id _
  exact length_flatMap_map_const _ _ _

theorem mem_occurrences (order : List String) (c : cyclonedxParser Pkg)
    (o : IsOccurrenceIngest Pkg) :
    o ∈ occurrences order c ↔
      ∃ id ∈ order, ∃ pkg ∈ packagesAt c id, ∃ art ∈ artifactsAt c id,
        o = { Pkg := pkg, Artifact := art, Justification := "cdx package with checksum" } := by
  unfold occurrences packagesAt artifactsAt
  simp only [List.mem_flatMap, List.mem_map]
  constructor
  · rintro ⟨id, hid, pkg, hpkg, art, hart, rfl⟩
    exact ⟨id, hid, pkg, hpkg, art, hart, rfl⟩
  · rintro ⟨id, hid, pkg, hpkg, art, hart, rfl⟩
    exact ⟨id, hid, pkg, hpkg, art, hart, rfl⟩

theorem GetPredicates_IsOccurrence [DecidableEq Pkg] (env : Env Pkg SBOM)
    (order₁ order₂ : List String) (c : cyclonedxParser Pkg) (preds : IngestPredicates Pkg SBOM)
    (h : GetPredicates env order₁ order₂ c = some preds) :
    preds.IsOccurrence = occurrences order₂ c := by
  unfold GetPredicates at h
  split at h
  · exact absurd h (by simp)
  · split at h
    · exact absurd h (by simp)
    · split at h
      · exact absurd h (by simp)
      · dsimp only at h
        split at h
        · exact absurd h (by simp)
        · split at h <;>
          · simp only [Option.some.injEq] at h
            rw [← h]

theorem GetPredicates_isSome [DecidableEq Pkg] (env : Env Pkg SBOM)
    (order₁ order₂ : List String) (c : cyclonedxParser Pkg) (bom : BOM) (comp : Component)
    (hb : c.cdxBom = some bom) (hm : bom.Metadata = some { Component := some comp })
    (ht : getPackageElement c comp.BOMRef ≠ some []) :
    ∃ preds, GetPredicates env order₁ order₂ c = some preds := by
  unfold GetPredicates
  rw [hb]
  dsimp only
  rw [hm]
  dsimp only
  split
  · rename_i heq
    exact absurd heq ht
  · cases bom.Dependencies with
    | none => exact ⟨_, rfl⟩
    | some deps => exact ⟨_, rfl⟩

/-- C7: the is-occurrence assertions of `GetPredicates` are one per package and
artifact indexed under the same key: their number is the sum, over the keys of
`packagePackages`, of the number of packages times the number of artifacts under the
key; each pairs a package and an artifact of one key and carries the justification
`cdx package with checksum`; every such pair is there; this is the collection that
`GetPredicates` returns, and it does return when the parser holds a decoded document
with a top-level component whose reference does not index an empty slice. -/
theorem occurrences_per_pair [DecidableEq Pkg] (env : Env Pkg SBOM)
    (order₁ order₂ : List String) (c : cyclonedxParser Pkg)
    (hr : IsRange c.packagePackages order₂) :
    (occurrences order₂ c).length =
      ((mapKeys c.packagePackages).map fun id =>
        (packagesAt c id).length * (artifactsAt c id).length).sum ∧
    (∀ o ∈ occurrences order₂ c,
      o.Justification = "cdx package with checksum" ∧
      ∃ id ∈ mapKeys c.packagePackages, o.Pkg ∈ packagesAt c id ∧ o.Artifact ∈ artifactsAt c id) ∧
    (∀ id ∈ mapKeys c.packagePackages, ∀ pkg ∈ packagesAt c id, ∀ art ∈ artifactsAt c id,
      ({ Pkg := pkg, Artifact := art, Justification := "cdx package with checksum" } :
        IsOccurrenceIngest Pkg) ∈ occurrences order₂ c) ∧
    (∀ preds : IngestPredicates Pkg SBOM, GetPredicates env order₁ order₂ c = some preds →
      preds.IsOccurrence = occurrences order₂ c) ∧
    (∀ (bom : BOM) (comp : Component), c.cdxBom = some bom →
      bom.Metadata = some { Component := some comp } →
      getPackageElement c comp.BOMRef ≠ some [] →
      ∃ preds : IngestPredicates Pkg SBOM, GetPredicates env order₁ order₂ c = some preds ∧
        preds.IsOccurrence = occurrences order₂ c) := by
  unfold IsRange at hr
  refine ⟨?_, ?_, ?_, ?_, ?_⟩
  · rw [occurrences_length]
    exact (hr.map _).sum_eq
  · intro o ho
    obtain ⟨id, hid, pkg, hpkg, art, hart, rfl⟩ := (mem_occurrences order₂ c o).mp ho
    exact ⟨rfl, id, hr.mem_iff.mp hid, hpkg, hart⟩
  · intro id hid pkg hpkg art hart
    exact (mem_occurrences order₂ c _).mpr ⟨id, hr.mem_iff.mpr hid, pkg, hpkg, art, hart, rfl⟩
  · intro preds h
    exact GetPredicates_IsOccurrence env order₁ order₂ c preds h
  · intro bom comp hb hm ht
    obtain ⟨preds, h⟩ := GetPredicates_isSome env order₁ order₂ c bom comp hb hm ht
    exact ⟨preds, h, GetPredicates_IsOccurrence env order₁ order₂ c preds h⟩

/-- C7, at the document whose library `lib` has one package and two checksums and
whose other indexed component has none: two is-occurrence assertions. -/
theorem occurrences_per_pair_witness :
    (occurrences ["lib", "top"]
        (Parse (exampleEnv withOSBOM) NewCycloneDXParser exampleDoc).1).length = 2 ∧
    ∃ preds : IngestPredicates String (String × Option Document),
      GetPredicates (exampleEnv withOSBOM) ["top", "lib"] ["lib", "top"]
        (Parse (exampleEnv withOSBOM) NewCycloneDXParser exampleDoc).1 = some preds ∧
      preds.IsOccurrence =
        occurrences ["lib", "top"] (Parse (exampleEnv withOSBOM) NewCycloneDXParser exampleDoc).1 :=
  ⟨(occurrences_per_pair (exampleEnv withOSBOM) ["top", "lib"] ["lib", "top"]
      (Parse (exampleEnv withOSBOM) NewCycloneDXParser exampleDoc).1 (by decide)).1.trans
      (by decide),
   (occurrences_per_pair (exampleEnv withOSBOM) ["top", "lib"] ["lib", "top"]
      (Parse (exampleEnv withOSBOM) NewCycloneDXParser exampleDoc).1 (by decide)).2.2.2.2
      withOSBOM
      { BOMRef := "top", CType := "application", Name := "app", Version := "2.0",
        PackageURL := "pkg:generic/app@2.0", Hashes := none }
      (by decide) (by decide) (by decide)⟩

/-! ## The assertions after `Parse` on a new parser -/

theorem mapLookup_mapAppend_head {α : Type} (m : GoMap (List α)) (k ref : String) (v x : α)
    (l : List α) (h : mapLookup m ref = some (x :: l)) :
    ∃ l', mapLookup (mapAppend m k v) ref = some (x :: l') := by
  by_cases hk : ref = k
  · subst hk
    exact ⟨l ++ [v], by rw [mapLookup_mapAppend_self, h]; rfl⟩
  · exact ⟨l, by rw [mapLookup_mapAppend_ne _ _ _ _ hk, h]⟩

theorem getPackagesLoop_head (env : Env Pkg SBOM) (comps : List Component)
    (c : cyclonedxParser Pkg) (ref : String) (x : Pkg) (l : List Pkg)
    (h : mapLookup c.packagePackages ref = some (x :: l)) :
    ∃ l', mapLookup (getPackagesLoop env comps c).1.packagePackages ref = some (x :: l') := by
  induction comps generalizing c l with
  | nil => exact ⟨l, h⟩
  | cons comp rest ih =>
    rw [getPackagesLoop]
    by_cases hos : comp.CType = ComponentTypeOS
    · rw [if_neg (not_not.mpr hos)]
      exact ih c l h
    · rw [if_pos hos]
      cases componentPurl env comp with
      | none => exact ⟨l, h⟩
      | some purl =>
        dsimp only
        cases env.PurlToPkg purl with
        | error err => exact ⟨l, h⟩
        | ok pkg =>
          dsimp only
          obtain ⟨l', hl'⟩ := mapLookup_mapAppend_head c.packagePackages comp.BOMRef ref pkg x l h
          exact ih { c with
            packagePackages := mapAppend c.packagePackages comp.BOMRef pkg
            identifierStrings := ⟨c.identifierStrings.PurlStrings ++ [comp.PackageURL]⟩
            packageArtifacts := addHashes env c.packageArtifacts comp.BOMRef comp.Hashes } l' hl'

theorem Parse_new_accepted (env : Env Pkg SBOM) (doc : Document) (bom : BOM) (comp : Component)
    (c' : cyclonedxParser Pkg) (hd : parseCycloneDXBOM env doc = Except.ok bom)
    (hm : bom.Metadata = some { Component := some comp })
    (hp : Parse env NewCycloneDXParser doc = (c', Status.ok)) :
    ∃ (purl : String) (topPackage : Pkg), topLevelPurl env comp = some purl ∧
      env.PurlToPkg purl = Except.ok topPackage ∧
      getPackages env
        { doc := some doc
          packagePackages := [(comp.BOMRef, [topPackage])]
          packageArtifacts := addHashes env [] comp.BOMRef comp.Hashes
          identifierStrings := ⟨[purl]⟩
          cdxBom := some bom } bom = (c', Status.ok) := by
  unfold Parse at hp
  rw [hd] at hp
  dsimp only at hp
  unfold getTopLevelPackage at hp
  rw [hm] at hp
  dsimp only at hp
  cases hpurl : topLevelPurl env comp with
  | none =>
    rw [hpurl] at hp
    simp at hp
  | some purl =>
    rw [hpurl] at hp
    dsimp only at hp
    cases hk : env.PurlToPkg purl with
    | error err =>
      rw [hk] at hp
      simp at hp
    | ok topPackage =>
      rw [hk] at hp
      exact ⟨purl, topPackage, rfl, hk, hp⟩

/-- C9: when `Parse` on a new parser accepts a document with a top-level component,
`GetPredicates` returns exactly one has-SBOM assertion, built by
`CreateTopLevelHasSBOM` from the record that `PurlToPkg` made of the top-level
component, which is the first record under the top-level reference, and from the
parsed document. -/
theorem GetPredicates_HasSBOM [DecidableEq Pkg] (env : Env Pkg SBOM) (doc : Document)
    (bom : BOM) (comp : Component) (c' : cyclonedxParser Pkg)
    (hd : parseCycloneDXBOM env doc = Except.ok bom)
    (hm : bom.Metadata = some { Component := some comp })
    (hp : Parse env NewCycloneDXParser doc = (c', Status.ok)) :
    ∃ (purl : String) (topPackage : Pkg), topLevelPurl env comp = some purl ∧
      env.PurlToPkg purl = Except.ok topPackage ∧
      (packagesAt c' comp.BOMRef).head? = some topPackage ∧
      ∀ order₁ order₂ : List String, ∃ preds : IngestPredicates Pkg SBOM,
        GetPredicates env order₁ order₂ c' = some preds ∧
        preds.HasSBOM = [env.CreateTopLevelHasSBOM topPackage (some doc)] := by
  obtain ⟨purl, topPackage, hpurl, hk, hg⟩ := Parse_new_accepted env doc bom comp c' hd hm hp
  have hc' : c' = (getPackages env
        { doc := some doc
          packagePackages := [(comp.BOMRef, [topPackage])]
          packageArtifacts := addHashes env [] comp.BOMRef comp.Hashes
          identifierStrings := ⟨[purl]⟩
          cdxBom := some bom } bom).1 := by rw [hg]
  have hfacts : c'.cdxBom = some bom ∧ c'.doc = some doc ∧
      ∃ l', mapLookup c'.packagePackages comp.BOMRef = some (topPackage :: l') := by
    rw [hc']
    unfold getPackages
    cases bom.Components with
    | none => exact ⟨rfl, rfl, [], by simp [mapLookup]⟩
    | some comps =>
      dsimp only
      exact ⟨(getPackagesLoop_doc env comps _).1, (getPackagesLoop_doc env comps _).2,
        getPackagesLoop_head env comps _ comp.BOMRef topPackage [] (by simp [mapLookup])⟩
  obtain ⟨hb, hdoc, l', hl'⟩ := hfacts
  refine ⟨purl, topPackage, hpurl, hk, by simp [packagesAt, hl'], ?_⟩
  intro order₁ order₂
  unfold GetPredicates
  rw [hb]
  dsimp only
  rw [hm]
  dsimp only
  unfold getPackageElement
  rw [hl', hdoc]
  dsimp only
  cases bom.Dependencies with
  | none => exact ⟨_, rfl, rfl⟩
  | some deps => exact ⟨_, rfl, rfl⟩

/-- C9, at the document with the library `lib` and the operating system `os`. -/
theorem GetPredicates_HasSBOM_witness :
    ∃ (purl : String) (topPackage : String),
      topLevelPurl (exampleEnv withOSBOM)
        { BOMRef := "top", CType := "application", Name := "app", Version := "2.0",
          PackageURL := "pkg:generic/app@2.0", Hashes := none } = some purl ∧
      (exampleEnv withOSBOM).PurlToPkg purl = Except.ok topPackage ∧
      (packagesAt (Parse (exampleEnv withOSBOM) NewCycloneDXParser exampleDoc).1 "top").head? =
        some topPackage ∧
      ∀ order₁ order₂ : List String,
        ∃ preds : IngestPredicates String (String × Option Document),
          GetPredicates (exampleEnv withOSBOM) order₁ order₂
            (Parse (exampleEnv withOSBOM) NewCycloneDXParser exampleDoc).1 = some preds ∧
          preds.HasSBOM =
            [(exampleEnv withOSBOM).CreateTopLevelHasSBOM topPackage (some exampleDoc)] :=
  GetPredicates_HasSBOM (exampleEnv withOSBOM) exampleDoc withOSBOM
    { BOMRef := "top", CType := "application", Name := "app", Version := "2.0",
      PackageURL := "pkg:generic/app@2.0", Hashes := none }
    (Parse (exampleEnv withOSBOM) NewCycloneDXParser exampleDoc).1 rfl rfl (by decide)

theorem CreateTopLevelIsDeps_perm [DecidableEq Pkg] (order order' : List String)
    (h : order.Perm order') (toplevel : Pkg) (packages : GoMap (List Pkg))
    (justification : String) :
    (CreateTopLevelIsDeps order toplevel packages justification).Perm
      (CreateTopLevelIsDeps order' toplevel packages justification) := by
  unfold CreateTopLevelIsDeps
  exact h.flatMap_right _

theorem CreateTopLevelIsDeps_two [DecidableEq Pkg] (r0 r1 : String) (T P : Pkg)
    (justification : String) :
    CreateTopLevelIsDeps (mapKeys (mapAppend [(r0, [T])] r1 P)) T
        (mapAppend [(r0, [T])] r1 P) justification =
      if P = T then []
      else [{ Pkg := T, DepPkg := P, Justification := justification }] := by
  by_cases h : r0 = r1
  · subst h
    by_cases hP : P = T
    · simp [CreateTopLevelIsDeps, mapAppend, mapLookup, mapKeys, hP]
    · simp [CreateTopLevelIsDeps, mapAppend, mapLookup, mapKeys, hP]
  · have h' : r1 ≠ r0 := fun e => h e.symm
    by_cases hP : P = T
    · simp [CreateTopLevelIsDeps, mapAppend, mapLookup, mapKeys, hP, h, h']
    · simp [CreateTopLevelIsDeps, mapAppend, mapLookup, mapKeys, hP, h, h']

theorem mapLookup_two_head {α : Type} (r0 r1 : String) (T P : α) :
    ∃ l, mapLookup (mapAppend [(r0, [T])] r1 P) r0 = some (T :: l) := by
  by_cases h : r0 = r1
  · exact ⟨[P], by simp [mapAppend, mapLookup, h]⟩
  · exact ⟨[], by simp [mapAppend, mapLookup, h]⟩

/-- C10, as amended: when `Parse` on a new parser accepts a document with a top-level
component, exactly one listed component that is not an operating system and no
dependency section, `GetPredicates` returns, for every order of visit of the keys, the
single heuristic edge from the top-level record to the record of the other component
when the two records differ, and no is-dependency assertion when they are equal; no
assertion has the same record as source and target. -/
theorem heuristic_edge_single_component [DecidableEq Pkg] (env : Env Pkg SBOM) (doc : Document)
    (bom : BOM) (top other : Component) (comps : List Component) (c' : cyclonedxParser Pkg)
    (order₁ order₂ : List String)
    (hd : parseCycloneDXBOM env doc = Except.ok bom)
    (hm : bom.Metadata = some { Component := some top })
    (hc : bom.Components = some comps)
    (hone : comps.filter (fun comp => decide (comp.CType ≠ ComponentTypeOS)) = [other])
    (hdep : bom.Dependencies = none)
    (hp : Parse env NewCycloneDXParser doc = (c', Status.ok))
    (hr : IsRange c'.packagePackages order₁) :
    ∃ (purlT purlP : String) (T P : Pkg),
      topLevelPurl env top = some purlT ∧ env.PurlToPkg purlT = Except.ok T ∧
      componentPurl env other = some purlP ∧ env.PurlToPkg purlP = Except.ok P ∧
      ∃ preds : IngestPredicates Pkg SBOM,
        GetPredicates env order₁ order₂ c' = some preds ∧
        preds.IsDependency =
          (if P = T then []
           else [{ Pkg := T, DepPkg := P,
                   Justification :=
                    "top-level package GUAC heuristic connecting to each file/package" }]) ∧
        ∀ d ∈ preds.IsDependency, d.Pkg ≠ d.DepPkg := by
  obtain ⟨purlT, T, hpurl, hk, hg⟩ := Parse_new_accepted env doc bom top c' hd hm hp
  have hos : other.CType ≠ ComponentTypeOS := by
    have hmem : other ∈ comps.filter (fun comp => decide (comp.CType ≠ ComponentTypeOS)) := by
      rw [hone]; exact List.mem_singleton_self _
    simpa using (List.mem_filter.mp hmem).2
  unfold getPackages at hg
  rw [hc] at hg
  dsimp only at hg
  rw [getPackagesLoop_filter, hone, getPackagesLoop, if_pos hos] at hg
  cases hpp : componentPurl env other with
  | none =>
    rw [hpp] at hg
    simp at hg
  | some purlP =>
    rw [hpp] at hg
    dsimp only at hg
    cases hkP : env.PurlToPkg purlP with
    | error err =>
      rw [hkP] at hg
      simp at hg
    | ok P =>
      rw [hkP] at hg
      dsimp only [getPackagesLoop] at hg
      have hc' := (Prod.mk.inj hg).1
      refine ⟨purlT, purlP, T, P, hpurl, hk, rfl, hkP, ?_⟩
      obtain ⟨l, hl⟩ := mapLookup_two_head top.BOMRef other.BOMRef T P
      have hpk : c'.packagePackages = mapAppend [(top.BOMRef, [T])] other.BOMRef P := by
        rw [← hc']
      have hb : c'.cdxBom = some bom := by rw [← hc']
      have hdeps : CreateTopLevelIsDeps order₁ T c'.packagePackages
            "top-level package GUAC heuristic connecting to each file/package" =
          (if P = T then []
           else [{ Pkg := T, DepPkg := P,
                   Justification :=
                    "top-level package GUAC heuristic connecting to each file/package" }]) := by
        have hperm := CreateTopLevelIsDeps_perm order₁ _ hr T c'.packagePackages
          "top-level package GUAC heuristic connecting to each file/package"
        rw [hpk, CreateTopLevelIsDeps_two] at hperm
        rw [hpk]
        by_cases hPT : P = T
        · rw [if_pos hPT] at hperm ⊢
          exact hperm.eq_nil
        · rw [if_neg hPT] at hperm ⊢
          exact List.perm_singleton.mp hperm
      refine ⟨{ IsDependency := CreateTopLevelIsDeps order₁ T c'.packagePackages
                  "top-level package GUAC heuristic connecting to each file/package"
                HasSBOM := [env.CreateTopLevelHasSBOM T c'.doc]
                IsOccurrence := occurrences order₂ c' }, ?_, hdeps, ?_⟩
      · unfold GetPredicates
        rw [hb]
        dsimp only
        rw [hm]
        dsimp only
        unfold getPackageElement
        rw [hdep, hpk, hl]
      · intro d hd'
        rw [hdeps] at hd'
        by_cases hPT : P = T
        · rw [if_pos hPT] at hd'
          simp at hd'
        · rw [if_neg hPT, List.mem_singleton] at hd'
          rw [hd']
          exact fun e => hPT e.symm

/-- C10, as amended, at the document whose only listed component is the library `lib`
without a declared package URL: one heuristic edge, from the top-level record to the
record of `lib`. -/
theorem heuristic_edge_single_component_witness :
    ∃ (purlT purlP : String) (T P : String),
      topLevelPurl (exampleEnv undeclaredLibraryBOM)
        { BOMRef := "top", CType := "application", Name := "app", Version := "2.0",
          PackageURL := "pkg:generic/app@2.0", Hashes := none } = some purlT ∧
      (exampleEnv undeclaredLibraryBOM).PurlToPkg purlT = Except.ok T ∧
      componentPurl (exampleEnv undeclaredLibraryBOM)
        { BOMRef := "lib", CType := "library", Name := "lib", Version := "1.0",
          PackageURL := "", Hashes := none } = some purlP ∧
      (exampleEnv undeclaredLibraryBOM).PurlToPkg purlP = Except.ok P ∧
      ∃ preds : IngestPredicates String (String × Option Document),
        GetPredicates (exampleEnv undeclaredLibraryBOM) ["lib", "top"] ["top", "lib"]
          (Parse (exampleEnv undeclaredLibraryBOM) NewCycloneDXParser exampleDoc).1 = some preds ∧
        preds.IsDependency =
          (if P = T then []
           else [{ Pkg := T, DepPkg := P,
                   Justification :=
                    "top-level package GUAC heuristic connecting to each file/package" }]) ∧
        ∀ d ∈ preds.IsDependency, d.Pkg ≠ d.DepPkg :=
  heuristic_edge_single_component (exampleEnv undeclaredLibraryBOM) exampleDoc
    undeclaredLibraryBOM
    { BOMRef := "top", CType := "application", Name := "app", Version := "2.0",
      PackageURL := "pkg:generic/app@2.0", Hashes := none }
    { BOMRef := "lib", CType := "library", Name := "lib", Version := "1.0",
      PackageURL := "", Hashes := none }
    [{ BOMRef := "lib", CType := "library", Name := "lib", Version := "1.0",
       PackageURL := "", Hashes := none }]
    (Parse (exampleEnv undeclaredLibraryBOM) NewCycloneDXParser exampleDoc).1
    ["lib", "top"] ["top", "lib"] rfl rfl rfl (by decide) rfl (by decide) (by decide)

/-- C10, refuted as stated: the document whose only listed component declares the
package URL of the top-level component has a top-level component, exactly one other
component, which is not an operating system, and no dependency section; `Parse` on a
new parser accepts it, and `GetPredicates` returns no is-dependency assertion. -/
theorem heuristic_edge_missing_for_equal_records :
    sameIdentityBOM.Metadata.isSome = true ∧
    (sameIdentityBOM.Components.getD []).length = 1 ∧
    (∀ comp ∈ sameIdentityBOM.Components.getD [], comp.CType ≠ ComponentTypeOS) ∧
    sameIdentityBOM.Dependencies = none ∧
    (Parse (exampleEnv sameIdentityBOM) NewCycloneDXParser exampleDoc).2 = Status.ok ∧
    IsRange (Parse (exampleEnv sameIdentityBOM) NewCycloneDXParser exampleDoc).1.packagePackages
      ["top", "dup"] ∧
    (GetPredicates (exampleEnv sameIdentityBOM) ["top", "dup"] ["top", "dup"]
        (Parse (exampleEnv sameIdentityBOM) NewCycloneDXParser exampleDoc).1).map
      (fun preds => preds.IsDependency) = some [] := by
  decide

/-! ## Decoding, and the calls that do not return -/

/-- C15: for a document whose format is neither `FormatJSON` nor `FormatXML`,
`parseCycloneDXBOM` returns the error of the unrecognized format and no decoded
document, whatever the payload, and `Parse` returns the error that wraps it; the
parser after `Parse` is the parser of before with the document recorded, so
`packagePackages`, `packageArtifacts` and the collected identifiers are unchanged. -/
theorem Parse_unrecognized_format (env : Env Pkg SBOM) (c : cyclonedxParser Pkg)
    (doc : Document) (hj : doc.Format ≠ env.FormatJSON) (hx : doc.Format ≠ env.FormatXML) :
    parseCycloneDXBOM env doc =
      Except.error ("unrecognized CycloneDX format " ++ doc.Format) ∧
    (∀ blob : List Nat,
      parseCycloneDXBOM env { doc with Blob := blob } = parseCycloneDXBOM env doc) ∧
    Parse env c doc =
      ({ c with doc := some doc },
       Status.error ("failed to parse cyclonedx BOM: " ++
        ("unrecognized CycloneDX format " ++ doc.Format))) ∧
    (Parse env c doc).1.packagePackages = c.packagePackages ∧
    (Parse env c doc).1.packageArtifacts = c.packageArtifacts ∧
    (GetIdentifiers (Parse env c doc).1).PurlStrings = c.identifierStrings.PurlStrings := by
  have h1 : parseCycloneDXBOM env doc =
      Except.error ("unrecognized CycloneDX format " ++ doc.Format) := by
    unfold parseCycloneDXBOM
    rw [if_neg hj, if_neg hx]
  have h2 : Parse env c doc =
      ({ c with doc := some doc },
       Status.error ("failed to parse cyclonedx BOM: " ++
        ("unrecognized CycloneDX format " ++ doc.Format))) := by
    unfold Parse
    rw [h1]
  refine ⟨h1, ?_, h2, ?_, ?_, ?_⟩
  · intro blob
    rw [h1]
    unfold parseCycloneDXBOM
    rw [if_neg hj, if_neg hx]
  · rw [h2]
  · rw [h2]
  · rw [h2]; rfl

/-- C15, at a document of format `yaml`. -/
theorem Parse_unrecognized_format_witness :
    Parse (exampleEnv emptyBOM) (NewCycloneDXParser : cyclonedxParser String)
        { Blob := [123, 125], Format := "yaml" } =
      ({ (NewCycloneDXParser : cyclonedxParser String) with
          doc := some { Blob := [123, 125], Format := "yaml" } },
       Status.error ("failed to parse cyclonedx BOM: " ++
        ("unrecognized CycloneDX format " ++ "yaml"))) :=
  (Parse_unrecognized_format (exampleEnv emptyBOM) NewCycloneDXParser
    { Blob := [123, 125], Format := "yaml" } (by decide) (by decide)).2.2.1

/-- C16: on a document whose metadata declares no top-level component and whose list
holds one library, `Parse` on a new parser succeeds and indexes the library, and
`GetPredicates` does not return: the reference of the top-level component is read
through a nil pointer. -/
theorem GetPredicates_panics_without_top_level :
    getTopLevelPackage (exampleEnv noTopLevelBOM)
        (NewCycloneDXParser : cyclonedxParser String) noTopLevelBOM =
      (NewCycloneDXParser, Status.ok) ∧
    (Parse (exampleEnv noTopLevelBOM) NewCycloneDXParser exampleDoc).2 = Status.ok ∧
    (Parse (exampleEnv noTopLevelBOM) NewCycloneDXParser exampleDoc).1.packagePackages =
      [("lib", ["pkg:generic/lib@1.0"])] ∧
    GetPredicates (exampleEnv noTopLevelBOM) ["lib"] ["lib"]
      (Parse (exampleEnv noTopLevelBOM) NewCycloneDXParser exampleDoc).1 = none := by
  decide

/-- C17: for the file name `/home/work/test` and the version `1.0`, which is not
empty and has no colon, `guacCDXFilePurl` does not return, the index 1 being out of
range of the split version, and `Parse` of a document whose top-level component is
that file ends in a panic. -/
theorem guacCDXFilePurl_panics_without_colon :
    Split "1.0" ':' = ["1.0"] ∧
    guacCDXFilePurl (exampleEnv fileVersionBOM) "/home/work/test" "1.0" = none ∧
    (Parse (exampleEnv fileVersionBOM) NewCycloneDXParser exampleDoc).2 = Status.panic := by
  decide

/-! ## The assertions of the dependency section -/

theorem getPackageElement_cdxBom (c : cyclonedxParser Pkg) (b : Option BOM) (ref : String) :
    getPackageElement { c with cdxBom := b } ref = getPackageElement c ref := rfl

theorem heuristicEdges_cdxBom [DecidableEq Pkg] (order : List String) (c : cyclonedxParser Pkg)
    (b : Option BOM) (ref : String) :
    heuristicEdges order { c with cdxBom := b } ref = heuristicEdges order c ref := rfl

theorem dependencyEdges_cdxBom [DecidableEq Pkg] (env : Env Pkg SBOM) (c : cyclonedxParser Pkg)
    (b : Option BOM) (toplevel : Option (List Pkg)) (dependencies : List Dependency) :
    dependencyEdges env { c with cdxBom := b } toplevel dependencies =
      dependencyEdges env c toplevel dependencies := rfl

theorem occurrences_cdxBom (order : List String) (c : cyclonedxParser Pkg) (b : Option BOM) :
    occurrences order { c with cdxBom := b } = occurrences order c := rfl

theorem GetPredicates_eq [DecidableEq Pkg] (env : Env Pkg SBOM)
    (order₁ order₂ : List String) (c : cyclonedxParser Pkg) (bom : BOM) (comp : Component)
    (hb : c.cdxBom = some bom) (hm : bom.Metadata = some { Component := some comp }) :
    GetPredicates env order₁ order₂ c =
      match getPackageElement c comp.BOMRef with
      | some [] => none
      | toplevel =>
        some { IsDependency :=
                heuristicEdges order₁ c comp.BOMRef ++
                  dependencyEdges env c toplevel (bom.Dependencies.getD [])
               HasSBOM :=
                match toplevel with
                | some (top :: _) => [env.CreateTopLevelHasSBOM top c.doc]
                | _ => []
               IsOccurrence := occurrences order₂ c } := by
  unfold GetPredicates
  rw [hb]
  dsimp only
  rw [hm]
  dsimp only
  unfold heuristicEdges
  cases ht : getPackageElement c comp.BOMRef with
  | none =>
    cases bom.Dependencies with
    | none => simp [dependencyEdges]
    | some deps => rfl
  | some l =>
    cases l with
    | nil => rfl
    | cons top rest =>
      cases bom.Dependencies with
      | none => simp [dependencyEdges]
      | some deps => rfl

theorem GetPredicates_IsDependency [DecidableEq Pkg] (env : Env Pkg SBOM)
    (order₁ order₂ : List String) (c : cyclonedxParser Pkg) (bom : BOM) (comp : Component)
    (preds : IngestPredicates Pkg SBOM) (hb : c.cdxBom = some bom)
    (hm : bom.Metadata = some { Component := some comp })
    (h : GetPredicates env order₁ order₂ c = some preds) :
    preds.IsDependency =
      heuristicEdges order₁ c comp.BOMRef ++
        dependencyEdges env c (getPackageElement c comp.BOMRef) (bom.Dependencies.getD []) := by
  rw [GetPredicates_eq env order₁ order₂ c bom comp hb hm] at h
  split at h
  · exact absurd h (by simp)
  · simp only [Option.some.injEq] at h
    rw [← h]

theorem dependencyEdges_cons [DecidableEq Pkg] (env : Env Pkg SBOM) (c : cyclonedxParser Pkg)
    (toplevel : Option (List Pkg)) (deps : Dependency) (rest : List Dependency) :
    dependencyEdges env c toplevel (deps :: rest) =
      dependencyEdges env c toplevel [deps] ++ dependencyEdges env c toplevel rest := by
  simp [dependencyEdges]

theorem dependencyEdges_entry [DecidableEq Pkg] (env : Env Pkg SBOM) (c : cyclonedxParser Pkg)
    (toplevel : Option (List Pkg)) (deps : Dependency) :
    dependencyEdges env c toplevel [deps] =
      match mapLookup c.packagePackages deps.Ref with
      | none => []
      | some currPkg =>
        if some currPkg = toplevel then []
        else
          (deps.Dependencies.getD []).flatMap fun depPkg =>
            match mapLookup c.packagePackages depPkg with
            | none => []
            | some depPkgs => pairEdges env currPkg depPkgs := by
  unfold dependencyEdges pairEdges
  rw [List.flatMap_singleton]
  cases mapLookup c.packagePackages deps.Ref with
  | none => rfl
  | some currPkg =>
    dsimp only
    split
    · rfl
    · cases deps.Dependencies with
      | none => rfl
      | some targets => rfl

theorem dependencyEdges_resolvable [DecidableEq Pkg] (env : Env Pkg SBOM)
    (c : cyclonedxParser Pkg) (toplevel : Option (List Pkg)) (dependencies : List Dependency) :
    dependencyEdges env c toplevel (resolvableDependencies c dependencies) =
      dependencyEdges env c toplevel dependencies := by
  induction dependencies with
  | nil => rfl
  | cons deps rest ih =>
    rw [dependencyEdges_cons env c toplevel deps rest, ← ih]
    unfold resolvableDependencies
    cases hl : mapLookup c.packagePackages deps.Ref with
    | none =>
      rw [List.filter_cons_of_neg (by simp [hl]), dependencyEdges_entry, hl]
      rfl
    | some currPkg =>
      rw [List.filter_cons_of_pos (by simp [hl]), List.map_cons, dependencyEdges_cons]
      congr 1
      rw [dependencyEdges_entry, dependencyEdges_entry]
      dsimp only
      rw [hl]
      dsimp only
      split
      · rfl
      · cases deps.Dependencies with
        | none => rfl
        | some targets =>
          dsimp only [Option.map, Option.getD]
          induction targets with
          | nil => rfl
          | cons t ts iht =>
            cases ht : mapLookup c.packagePackages t with
            | none =>
              rw [List.filter_cons_of_neg (by simp [ht]), List.flatMap_cons, ht, iht]
              rfl
            | some depPkgs =>
              rw [List.filter_cons_of_pos (by simp [ht]), List.flatMap_cons, List.flatMap_cons,
                iht]

/-- C12: the assertions of the dependency section are those of the section without
the entries whose source is not a key of `packagePackages` and without the targets
that are not keys; `GetPredicates` on the parser holding the pruned section returns
what it returns on the parser itself, and it returns whenever the parser holds a
decoded document with a top-level component whose reference does not index an empty
slice, whatever the dependency section. -/
theorem unresolvable_identifiers_are_skipped [DecidableEq Pkg] (env : Env Pkg SBOM)
    (order₁ order₂ : List String) (c : cyclonedxParser Pkg) (bom : BOM)
    (dependencies : List Dependency) (hb : c.cdxBom = some bom)
    (hdeps : bom.Dependencies = some dependencies) :
    (∀ toplevel : Option (List Pkg),
      dependencyEdges env c toplevel dependencies =
        dependencyEdges env c toplevel (resolvableDependencies c dependencies)) ∧
    GetPredicates env order₁ order₂ c =
      GetPredicates env order₁ order₂
        { c with
            cdxBom := some { bom with
              Dependencies := some (resolvableDependencies c dependencies) } } ∧
    (∀ comp : Component, bom.Metadata = some { Component := some comp } →
      getPackageElement c comp.BOMRef ≠ some [] →
      ∃ preds : IngestPredicates Pkg SBOM, GetPredicates env order₁ order₂ c = some preds ∧
        preds.IsDependency =
          heuristicEdges order₁ c comp.BOMRef ++
            dependencyEdges env c (getPackageElement c comp.BOMRef)
              (resolvableDependencies c dependencies)) := by
  refine ⟨fun toplevel => (dependencyEdges_resolvable env c toplevel dependencies).symm, ?_, ?_⟩
  · cases hmd : bom.Metadata with
    | none =>
      unfold GetPredicates
      rw [hb]
      dsimp only
      rw [hmd]
    | some metadata =>
      cases hcomp : metadata.Component with
      | none =>
        unfold GetPredicates
        rw [hb]
        dsimp only
        rw [hmd]
        dsimp only
        rw [hcomp]
      | some comp =>
        have hm : bom.Metadata = some { Component := some comp } := by
          rw [hmd, ← hcomp]
        have hm' : (some metadata : Option Metadata) = some { Component := some comp } := by
          rw [← hcomp]
        rw [GetPredicates_eq env order₁ order₂ c bom comp hb hm,
          GetPredicates_eq env order₁ order₂
            { c with
                cdxBom := some { Metadata := some metadata, Components := bom.Components,
                                 Dependencies := some (resolvableDependencies c dependencies) } }
            { Metadata := some metadata, Components := bom.Components,
              Dependencies := some (resolvableDependencies c dependencies) } comp rfl hm',
          hdeps]
        simp only [Option.getD_some, getPackageElement_cdxBom, heuristicEdges_cdxBom,
          dependencyEdges_cdxBom, occurrences_cdxBom, dependencyEdges_resolvable]
  · intro comp hm ht
    obtain ⟨preds, hp⟩ := GetPredicates_isSome env order₁ order₂ c bom comp hb hm ht
    refine ⟨preds, hp, ?_⟩
    rw [GetPredicates_IsDependency env order₁ order₂ c bom comp preds hb hm hp, hdeps,
      dependencyEdges_resolvable]
    rfl

/-- C12, at the document whose dependency section names the operating system `os`,
which is not indexed. -/
theorem unresolvable_identifiers_are_skipped_witness :
    resolvableDependencies (Parse (exampleEnv withOSBOM) NewCycloneDXParser exampleDoc).1
        [⟨"lib", some ["os"]⟩, ⟨"os", some ["lib"]⟩] = [⟨"lib", some []⟩] ∧
    GetPredicates (exampleEnv withOSBOM) ["top", "lib"] ["top", "lib"]
        (Parse (exampleEnv withOSBOM) NewCycloneDXParser exampleDoc).1 =
      GetPredicates (exampleEnv withOSBOM) ["top", "lib"] ["top", "lib"]
        { (Parse (exampleEnv withOSBOM) NewCycloneDXParser exampleDoc).1 with
            cdxBom := some { withOSBOM with
              Dependencies := some (resolvableDependencies
                (Parse (exampleEnv withOSBOM) NewCycloneDXParser exampleDoc).1
                [⟨"lib", some ["os"]⟩, ⟨"os", some ["lib"]⟩]) } } :=
  ⟨by decide,
   (unresolvable_identifiers_are_skipped (exampleEnv withOSBOM) ["top", "lib"] ["top", "lib"]
      (Parse (exampleEnv withOSBOM) NewCycloneDXParser exampleDoc).1 withOSBOM
      [⟨"lib", some ["os"]⟩, ⟨"os", some ["lib"]⟩] (by decide) rfl).2.1⟩

theorem pairEdges_length_le (env : Env Pkg SBOM) (currPkg depPkgs : List Pkg) :
    (pairEdges env currPkg depPkgs).length ≤ currPkg.length := by
  unfold pairEdges
  exact List.length_filterMap_le _ _

theorem dependencyEdges_pair [DecidableEq Pkg] (env : Env Pkg SBOM) (c : cyclonedxParser Pkg)
    (toplevel : Option (List Pkg)) (source target : String) :
    dependencyEdges env c toplevel [⟨source, some [target]⟩] =
      match mapLookup c.packagePackages source with
      | none => []
      | some currPkg =>
        if some currPkg = toplevel then []
        else
          match mapLookup c.packagePackages target with
          | none => []
          | some depPkgs => pairEdges env currPkg depPkgs := by
  rw [dependencyEdges_entry]
  cases mapLookup c.packagePackages source with
  | none => rfl
  | some currPkg =>
    dsimp only
    split
    · rfl
    · simp only [Option.getD_some, List.flatMap_singleton]

theorem dependencyEdges_by_pair [DecidableEq Pkg] (env : Env Pkg SBOM) (c : cyclonedxParser Pkg)
    (toplevel : Option (List Pkg)) (dependencies : List Dependency) :
    dependencyEdges env c toplevel dependencies =
      dependencies.flatMap fun deps =>
        (deps.Dependencies.getD []).flatMap fun depPkg =>
          dependencyEdges env c toplevel [⟨deps.Ref, some [depPkg]⟩] := by
  induction dependencies with
  | nil => rfl
  | cons deps rest ih =>
    rw [dependencyEdges_cons, List.flatMap_cons, ← ih]
    congr 1
    rw [dependencyEdges_entry]
    simp only [dependencyEdges_pair]
    cases mapLookup c.packagePackages deps.Ref with
    | none => simp
    | some currPkg =>
      dsimp only
      split
      · simp
      · rfl

/-- C11, as amended: for a source identifier that resolves to packages not skipped as
the top-level ones and a target identifier that resolves, the assertions of the pair
are what `GetIsDep` returns, called once per source package with the whole list of
the target packages: at most one assertion per source package, each one returned by
`GetIsDep` without error, whatever the number of target packages; and the assertions
of a dependency section are those of its pairs of a source and a target, in order. -/
theorem explicit_edges_per_source_package [DecidableEq Pkg] (env : Env Pkg SBOM)
    (c : cyclonedxParser Pkg) (toplevel : Option (List Pkg)) (source target : String)
    (currPkg depPkgs : List Pkg)
    (hs : mapLookup c.packagePackages source = some currPkg)
    (hn : some currPkg ≠ toplevel)
    (ht : mapLookup c.packagePackages target = some depPkgs) :
    dependencyEdges env c toplevel [⟨source, some [target]⟩] = pairEdges env currPkg depPkgs ∧
    (dependencyEdges env c toplevel [⟨source, some [target]⟩]).length ≤ currPkg.length ∧
    (∀ d ∈ dependencyEdges env c toplevel [⟨source, some [target]⟩],
      ∃ packNode ∈ currPkg,
        env.GetIsDep packNode depPkgs [] "CDX BOM Dependency" = Except.ok (some d)) ∧
    (∀ dependencies : List Dependency,
      dependencyEdges env c toplevel dependencies =
        dependencies.flatMap fun deps =>
          (deps.Dependencies.getD []).flatMap fun depPkg =>
            dependencyEdges env c toplevel [⟨deps.Ref, some [depPkg]⟩]) := by
  have e : dependencyEdges env c toplevel [⟨source, some [target]⟩] =
      pairEdges env currPkg depPkgs := by
    rw [dependencyEdges_pair, hs]
    dsimp only
    rw [if_neg hn, ht]
  refine ⟨e, ?_, ?_, dependencyEdges_by_pair env c toplevel⟩
  · rw [e]
    exact pairEdges_length_le env currPkg depPkgs
  · intro d hd
    rw [e] at hd
    unfold pairEdges at hd
    obtain ⟨packNode, hmem, hget⟩ := List.mem_filterMap.mp hd
    refine ⟨packNode, hmem, ?_⟩
    cases hg : env.GetIsDep packNode depPkgs [] "CDX BOM Dependency" with
    | error err =>
      rw [hg] at hget
      simp at hget
    | ok p =>
      rw [hg] at hget
      dsimp only at hget
      rw [hget]

/-- C11, as amended, at the document in which `s` depends on `t` and two components
share the reference `t`: one assertion for the pair. -/
theorem explicit_edges_per_source_package_witness :
    dependencyEdges (exampleEnv sharedTargetBOM)
        (Parse (exampleEnv sharedTargetBOM) NewCycloneDXParser exampleDoc).1
        (some ["pkg:generic/app@2.0"]) [⟨"s", some ["t"]⟩] =
      [{ Pkg := "pkg:generic/s@1.0", DepPkg := "pkg:generic/t1@1.0",
         Justification := "CDX BOM Dependency" }] :=
  (explicit_edges_per_source_package (exampleEnv sharedTargetBOM)
      (Parse (exampleEnv sharedTargetBOM) NewCycloneDXParser exampleDoc).1
      (some ["pkg:generic/app@2.0"]) "s" "t" ["pkg:generic/s@1.0"]
      ["pkg:generic/t1@1.0", "pkg:generic/t2@1.0"] (by decide) (by decide) (by decide)).1.trans
    (by decide)

/-- C11, refuted as stated: in the document in which `s` depends on `t`, the source `s`
resolves to one package, is not skipped, and the target `t` resolves to two packages;
`GetPredicates` returns one assertion of the dependency section, not two. -/
theorem explicit_edges_one_for_two_targets :
    (Parse (exampleEnv sharedTargetBOM) NewCycloneDXParser exampleDoc).2 = Status.ok ∧
    packagesAt (Parse (exampleEnv sharedTargetBOM) NewCycloneDXParser exampleDoc).1 "s" =
      ["pkg:generic/s@1.0"] ∧
    packagesAt (Parse (exampleEnv sharedTargetBOM) NewCycloneDXParser exampleDoc).1 "t" =
      ["pkg:generic/t1@1.0", "pkg:generic/t2@1.0"] ∧
    packagesAt (Parse (exampleEnv sharedTargetBOM) NewCycloneDXParser exampleDoc).1 "top" =
      ["pkg:generic/app@2.0"] ∧
    (GetPredicates (exampleEnv sharedTargetBOM) ["top", "s", "t"] ["top", "s", "t"]
        (Parse (exampleEnv sharedTargetBOM) NewCycloneDXParser exampleDoc).1).map
      (fun preds => preds.IsDependency.filter
        fun d => decide (d.Justification = "CDX BOM Dependency")) =
      some [{ Pkg := "pkg:generic/s@1.0", DepPkg := "pkg:generic/t1@1.0",
              Justification := "CDX BOM Dependency" }] := by
  decide

/-- C18: with `ref` the reference of the top-level component, a dependency entry whose
source resolves yields no assertion when the packages under its source are equal to
the slice under `ref`, and otherwise the assertions of its targets; an entry whose
source is `ref` itself yields none, whatever its targets, so the assertions of a
section are those of the section without such entries, and `GetPredicates` on a
section made of one such entry returns the heuristic assertions only. -/
theorem top_level_entries_are_skipped [DecidableEq Pkg] (env : Env Pkg SBOM)
    (c : cyclonedxParser Pkg) (ref : String) :
    (∀ (deps : Dependency) (currPkg : List Pkg),
      mapLookup c.packagePackages deps.Ref = some currPkg →
      dependencyEdges env c (getPackageElement c ref) [deps] =
        if some currPkg = getPackageElement c ref then []
        else
          (deps.Dependencies.getD []).flatMap fun depPkg =>
            match mapLookup c.packagePackages depPkg with
            | none => []
            | some depPkgs => pairEdges env currPkg depPkgs) ∧
    (∀ targets : Option (List String),
      dependencyEdges env c (getPackageElement c ref) [⟨ref, targets⟩] = []) ∧
    (∀ dependencies : List Dependency,
      dependencyEdges env c (getPackageElement c ref) dependencies =
        dependencyEdges env c (getPackageElement c ref)
          (dependencies.filter fun deps => decide (deps.Ref ≠ ref))) ∧
    (∀ (order₁ order₂ : List String) (bom : BOM) (comp : Component)
      (targets : Option (List String)) (preds : IngestPredicates Pkg SBOM),
      c.cdxBom = some bom → bom.Metadata = some { Component := some comp } →
      comp.BOMRef = ref → bom.Dependencies = some [⟨ref, targets⟩] →
      GetPredicates env order₁ order₂ c = some preds →
      preds.IsDependency = heuristicEdges order₁ c ref) := by
  have hself : ∀ targets : Option (List String),
      dependencyEdges env c (getPackageElement c ref) [⟨ref, targets⟩] = [] := by
    intro targets
    rw [dependencyEdges_entry]
    dsimp only
    unfold getPackageElement
    cases mapLookup c.packagePackages ref with
    | none => rfl
    | some currPkg => simp
  refine ⟨?_, hself, ?_, ?_⟩
  · intro deps currPkg hl
    rw [dependencyEdges_entry, hl]
  · intro dependencies
    induction dependencies with
    | nil => rfl
    | cons deps rest ih =>
      rw [dependencyEdges_cons]
      by_cases hr : deps.Ref = ref
      · rw [List.filter_cons_of_neg (by simpa using hr), ← ih]
        obtain ⟨r, t⟩ := deps
        cases hr
        rw [hself t]
        rfl
      · rw [List.filter_cons_of_pos (by simpa using hr),
          dependencyEdges_cons env c _ deps (rest.filter fun deps => decide (deps.Ref ≠ ref)),
          ← ih]
  · intro order₁ order₂ bom comp targets preds hb hm hcr hdeps hp
    rw [GetPredicates_IsDependency env order₁ order₂ c bom comp preds hb hm hp, hcr, hdeps]
    simp only [Option.getD_some, hself, List.append_nil]

/-- C18, at the document whose dependency section is the one entry of source `top`,
the top-level reference, and target `lib`: `GetPredicates` returns the heuristic
assertions only. -/
theorem top_level_entries_are_skipped_witness :
    ∃ preds : IngestPredicates String (String × Option Document),
      GetPredicates (exampleEnv topLevelSourceBOM) ["top", "lib"] ["top", "lib"]
        (Parse (exampleEnv topLevelSourceBOM) NewCycloneDXParser exampleDoc).1 = some preds ∧
      preds.IsDependency =
        heuristicEdges ["top", "lib"]
          (Parse (exampleEnv topLevelSourceBOM) NewCycloneDXParser exampleDoc).1 "top" :=
  (Option.isSome_iff_exists.mp
    (by decide :
      (GetPredicates (exampleEnv topLevelSourceBOM) ["top", "lib"] ["top", "lib"]
        (Parse (exampleEnv topLevelSourceBOM) NewCycloneDXParser exampleDoc).1).isSome = true)).elim
    fun preds hp =>
      ⟨preds, hp,
        (top_level_entries_are_skipped (exampleEnv topLevelSourceBOM)
          (Parse (exampleEnv topLevelSourceBOM) NewCycloneDXParser exampleDoc).1 "top").2.2.2
          ["top", "lib"] ["top", "lib"] topLevelSourceBOM
          { BOMRef := "top", CType := "application", Name := "app", Version := "2.0",
            PackageURL := "pkg:generic/app@2.0", Hashes := none }
          (some ["lib"]) preds (by decide) rfl rfl rfl hp⟩

theorem getPackagesLoop_append (env : Env Pkg SBOM) (pre rest : List Component)
    (c : cyclonedxParser Pkg) (h : (getPackagesLoop env pre c).2 = Status.ok) :
    getPackagesLoop env (pre ++ rest) c = getPackagesLoop env rest (getPackagesLoop env pre c).1 := by
  induction pre generalizing c with
  | nil => rfl
  | cons comp more ih =>
    rw [List.cons_append, getPackagesLoop]
    rw [getPackagesLoop] at h
    by_cases hos : comp.CType = ComponentTypeOS
    · rw [if_neg (not_not.mpr hos)] at h ⊢
      rw [ih c h]
      conv_rhs => rw [getPackagesLoop, if_neg (not_not.mpr hos)]
    · rw [if_pos hos] at h ⊢
      conv_rhs => rw [getPackagesLoop, if_pos hos]
      cases hp : componentPurl env comp with
      | none =>
        rw [hp] at h
        simp at h
      | some purl =>
        rw [hp] at h
        dsimp only at h ⊢
        cases hk : env.PurlToPkg purl with
        | error err =>
          rw [hk] at h
          simp at h
        | ok pkg =>
          rw [hk] at h
          dsimp only at h ⊢
          exact ih _ h

/-- C13, as amended: when `PurlToPkg` fails, `Parse` returns that failure and indexes
nothing more.  For the top-level component the parser holds the indexes and the
collected identifiers of before the call; for a component of the list that is not an
operating system the parser is the one reached after the top-level component and the
components listed before the failing one were indexed, and these stay in the parser. -/
theorem Parse_failure_keeps_earlier_components (env : Env Pkg SBOM) (c : cyclonedxParser Pkg)
    (doc : Document) (bom : BOM) (hd : parseCycloneDXBOM env doc = Except.ok bom) :
    (∀ (top : Component) (purl err : String),
      bom.Metadata = some { Component := some top } → topLevelPurl env top = some purl →
      env.PurlToPkg purl = Except.error err →
      Parse env c doc = ({ c with doc := some doc, cdxBom := some bom }, Status.error err)) ∧
    (∀ (c₁ : cyclonedxParser Pkg) (pre post : List Component) (bad : Component)
      (purl err : String),
      getTopLevelPackage env { c with doc := some doc, cdxBom := some bom } bom = (c₁, Status.ok) →
      bom.Components = some (pre ++ bad :: post) →
      (getPackagesLoop env pre c₁).2 = Status.ok →
      bad.CType ≠ ComponentTypeOS → componentPurl env bad = some purl →
      env.PurlToPkg purl = Except.error err →
      Parse env c doc = ((getPackagesLoop env pre c₁).1, Status.error err)) := by
  refine ⟨?_, ?_⟩
  · intro top purl err hm hp hk
    unfold Parse
    rw [hd]
    dsimp only
    unfold getTopLevelPackage
    rw [hm]
    dsimp only
    rw [hp]
    dsimp only
    rw [hk]
  · intro c₁ pre post bad purl err ht hc hpre hos hp hk
    unfold Parse
    rw [hd]
    dsimp only
    rw [ht]
    dsimp only
    unfold getPackages
    rw [hc]
    dsimp only
    rw [getPackagesLoop_append env pre (bad :: post) c₁ hpre, getPackagesLoop, if_pos hos, hp]
    dsimp only
    rw [hk]

/-- C13, as amended, at the document whose second listed component declares
`not-a-purl`: the parser is the one reached after the top-level component and the
first listed component. -/
theorem Parse_failure_keeps_earlier_components_witness :
    Parse (exampleEnv failingListedBOM) NewCycloneDXParser exampleDoc =
      ((getPackagesLoop (exampleEnv failingListedBOM)
          [{ BOMRef := "lib", CType := "library", Name := "lib", Version := "1.0",
             PackageURL := "pkg:generic/lib@1.0", Hashes := some [⟨"MD5", "12ef"⟩] }]
          (getTopLevelPackage (exampleEnv failingListedBOM)
            { (NewCycloneDXParser : cyclonedxParser String) with
                doc := some exampleDoc, cdxBom := some failingListedBOM }
            failingListedBOM).1).1,
       Status.error "invalid package URL not-a-purl") :=
  (Parse_failure_keeps_earlier_components (exampleEnv failingListedBOM) NewCycloneDXParser
      exampleDoc failingListedBOM rfl).2
    (getTopLevelPackage (exampleEnv failingListedBOM)
      { (NewCycloneDXParser : cyclonedxParser String) with
          doc := some exampleDoc, cdxBom := some failingListedBOM }
      failingListedBOM).1
    [{ BOMRef := "lib", CType := "library", Name := "lib", Version := "1.0",
       PackageURL := "pkg:generic/lib@1.0", Hashes := some [⟨"MD5", "12ef"⟩] }]
    [{ BOMRef := "late", CType := "library", Name := "late", Version := "1.0",
       PackageURL := "pkg:generic/late@1.0", Hashes := none }]
    { BOMRef := "bad", CType := "library", Name := "bad", Version := "1.0",
      PackageURL := "not-a-purl", Hashes := none }
    "not-a-purl" "invalid package URL not-a-purl" (by decide) rfl (by decide) (by decide)
    (by decide) rfl

/-- C13, refuted as stated: on the document whose second listed component declares
`not-a-purl`, `Parse` on a new parser returns the failure of `PurlToPkg`, and the
records, the artifact and the identifiers of the top-level component and of the first
listed component are in the parser, whose indexes and identifiers were empty before. -/
theorem Parse_failure_leaves_partial_result :
    (Parse (exampleEnv failingListedBOM) NewCycloneDXParser exampleDoc).2 =
      Status.error "invalid package URL not-a-purl" ∧
    (Parse (exampleEnv failingListedBOM) NewCycloneDXParser exampleDoc).1.packagePackages =
      [("top", ["pkg:generic/app@2.0"]), ("lib", ["pkg:generic/lib@1.0"])] ∧
    (Parse (exampleEnv failingListedBOM) NewCycloneDXParser exampleDoc).1.packageArtifacts =
      [("lib", [⟨"md5", "12ef"⟩])] ∧
    (GetIdentifiers
        (Parse (exampleEnv failingListedBOM) NewCycloneDXParser exampleDoc).1).PurlStrings =
      ["pkg:generic/app@2.0", "pkg:generic/lib@1.0"] ∧
    (NewCycloneDXParser : cyclonedxParser String).packagePackages = [] ∧
    (NewCycloneDXParser : cyclonedxParser String).packageArtifacts = [] ∧
    (GetIdentifiers (NewCycloneDXParser : cyclonedxParser String)).PurlStrings = [] := by
  decide

/-! ## `Parse` on a parser that already holds records -/

theorem mapLookup_mapAppend {α : Type} (m : GoMap (List α)) (k k' : String) (v : α) :
    mapLookup (mapAppend m k v) k' =
      if k' = k then some ((mapLookup m k).getD [] ++ [v]) else mapLookup m k' := by
  by_cases h : k' = k
  · subst h
    rw [if_pos rfl, mapLookup_mapAppend_self]
  · rw [if_neg h, mapLookup_mapAppend_ne _ _ _ _ h]

theorem appendEntries_mapAppend {α : Type} (prior m m₀ : GoMap (List α)) (k : String) (v : α)
    (h : ∀ k', mapLookup m k' = appendEntries (mapLookup prior k') (mapLookup m₀ k')) :
    ∀ k', mapLookup (mapAppend m k v) k' =
      appendEntries (mapLookup prior k') (mapLookup (mapAppend m₀ k v) k') := by
  intro k'
  rw [mapLookup_mapAppend, mapLookup_mapAppend]
  by_cases hk : k' = k
  · subst hk
    rw [if_pos rfl, if_pos rfl, h k']
    cases mapLookup prior k' <;> cases mapLookup m₀ k' <;> simp [appendEntries]
  · rw [if_neg hk, if_neg hk, h k']

theorem appendEntries_addHashes (env : Env Pkg SBOM)
    (prior m m₀ : GoMap (List ArtifactInputSpec)) (ref : String) (hashes : Option (List Hash))
    (h : ∀ k', mapLookup m k' = appendEntries (mapLookup prior k') (mapLookup m₀ k')) :
    ∀ k', mapLookup (addHashes env m ref hashes) k' =
      appendEntries (mapLookup prior k') (mapLookup (addHashes env m₀ ref hashes) k') := by
  cases hashes with
  | none => exact h
  | some hs =>
    unfold addHashes
    dsimp only
    induction hs generalizing m m₀ with
    | nil => exact h
    | cons x rest ih =>
      rw [List.foldl_cons, List.foldl_cons]
      exact ih _ _ (appendEntries_mapAppend prior m m₀ ref (hashArtifact env x) h)

theorem getPackagesLoop_appends (env : Env Pkg SBOM) (comps : List Component)
    (prior c c₀ : cyclonedxParser Pkg)
    (hi : c.identifierStrings.PurlStrings =
      prior.identifierStrings.PurlStrings ++ c₀.identifierStrings.PurlStrings)
    (hp : ∀ k, mapLookup c.packagePackages k =
      appendEntries (mapLookup prior.packagePackages k) (mapLookup c₀.packagePackages k))
    (ha : ∀ k, mapLookup c.packageArtifacts k =
      appendEntries (mapLookup prior.packageArtifacts k) (mapLookup c₀.packageArtifacts k)) :
    (getPackagesLoop env comps c).2 = (getPackagesLoop env comps c₀).2 ∧
    (getPackagesLoop env comps c).1.identifierStrings.PurlStrings =
      prior.identifierStrings.PurlStrings ++
        (getPackagesLoop env comps c₀).1.identifierStrings.PurlStrings ∧
    (∀ k, mapLookup (getPackagesLoop env comps c).1.packagePackages k =
      appendEntries (mapLookup prior.packagePackages k)
        (mapLookup (getPackagesLoop env comps c₀).1.packagePackages k)) ∧
    (∀ k, mapLookup (getPackagesLoop env comps c).1.packageArtifacts k =
      appendEntries (mapLookup prior.packageArtifacts k)
        (mapLookup (getPackagesLoop env comps c₀).1.packageArtifacts k)) := by
  induction comps generalizing c c₀ with
  | nil => exact ⟨rfl, hi, hp, ha⟩
  | cons comp rest ih =>
    rw [getPackagesLoop, getPackagesLoop]
    by_cases hos : comp.CType = ComponentTypeOS
    · rw [if_neg (not_not.mpr hos), if_neg (not_not.mpr hos)]
      exact ih c c₀ hi hp ha
    · rw [if_pos hos, if_pos hos]
      cases componentPurl env comp with
      | none => exact ⟨rfl, hi, hp, ha⟩
      | some purl =>
        dsimp only
        cases env.PurlToPkg purl with
        | error err => exact ⟨rfl, hi, hp, ha⟩
        | ok pkg =>
          dsimp only
          exact ih
            { c with
                packagePackages := mapAppend c.packagePackages comp.BOMRef pkg
                identifierStrings := ⟨c.identifierStrings.PurlStrings ++ [comp.PackageURL]⟩
                packageArtifacts := addHashes env c.packageArtifacts comp.BOMRef comp.Hashes }
            { c₀ with
                packagePackages := mapAppend c₀.packagePackages comp.BOMRef pkg
                identifierStrings := ⟨c₀.identifierStrings.PurlStrings ++ [comp.PackageURL]⟩
                packageArtifacts := addHashes env c₀.packageArtifacts comp.BOMRef comp.Hashes }
            (by simp [hi])
            (appendEntries_mapAppend _ _ _ _ _ hp)
            (appendEntries_addHashes env _ _ _ _ _ ha)

theorem getTopLevelPackage_appends (env : Env Pkg SBOM) (bom : BOM)
    (prior c c₀ : cyclonedxParser Pkg)
    (hi : c.identifierStrings.PurlStrings =
      prior.identifierStrings.PurlStrings ++ c₀.identifierStrings.PurlStrings)
    (hp : ∀ k, mapLookup c.packagePackages k =
      appendEntries (mapLookup prior.packagePackages k) (mapLookup c₀.packagePackages k))
    (ha : ∀ k, mapLookup c.packageArtifacts k =
      appendEntries (mapLookup prior.packageArtifacts k) (mapLookup c₀.packageArtifacts k)) :
    (getTopLevelPackage env c bom).2 = (getTopLevelPackage env c₀ bom).2 ∧
    (getTopLevelPackage env c bom).1.identifierStrings.PurlStrings =
      prior.identifierStrings.PurlStrings ++
        (getTopLevelPackage env c₀ bom).1.identifierStrings.PurlStrings ∧
    (∀ k, mapLookup (getTopLevelPackage env c bom).1.packagePackages k =
      appendEntries (mapLookup prior.packagePackages k)
        (mapLookup (getTopLevelPackage env c₀ bom).1.packagePackages k)) ∧
    (∀ k, mapLookup (getTopLevelPackage env c bom).1.packageArtifacts k =
      appendEntries (mapLookup prior.packageArtifacts k)
        (mapLookup (getTopLevelPackage env c₀ bom).1.packageArtifacts k)) := by
  unfold getTopLevelPackage
  cases bom.Metadata with
  | none => exact ⟨rfl, hi, hp, ha⟩
  | some metadata =>
    dsimp only
    cases metadata.Component with
    | none => exact ⟨rfl, hi, hp, ha⟩
    | some comp =>
      dsimp only
      cases topLevelPurl env comp with
      | none => exact ⟨rfl, hi, hp, ha⟩
      | some purl =>
        dsimp only
        cases env.PurlToPkg purl with
        | error err => exact ⟨rfl, hi, hp, ha⟩
        | ok topPackage =>
          exact ⟨rfl, by simp [hi], appendEntries_mapAppend _ _ _ _ _ hp,
            appendEntries_addHashes env _ _ _ _ _ ha⟩

theorem appendEntries_none_right {α : Type} (a : Option (List α)) : appendEntries a none = a := by
  cases a <;> rfl

theorem Parse_eq (env : Env Pkg SBOM) (c : cyclonedxParser Pkg) (doc : Document) :
    Parse env c doc =
      match parseCycloneDXBOM env doc with
      | Except.error err =>
        ({ c with doc := some doc }, Status.error ("failed to parse cyclonedx BOM: " ++ err))
      | Except.ok bom =>
        if (getTopLevelPackage env { c with doc := some doc, cdxBom := some bom } bom).2 = Status.ok
        then
          getPackages env
            (getTopLevelPackage env { c with doc := some doc, cdxBom := some bom } bom).1 bom
        else getTopLevelPackage env { c with doc := some doc, cdxBom := some bom } bom := by
  unfold Parse
  cases parseCycloneDXBOM env doc with
  | error err => rfl
  | ok bom =>
    dsimp only
    generalize getTopLevelPackage env { c with doc := some doc, cdxBom := some bom } bom = r
    obtain ⟨c₁, st⟩ := r
    cases st <;> simp

/-- C14, as amended: `Parse` does not reset the parser, it appends to what the parser
holds.  `Parse` ends on a parser `prior` as it ends on a new parser; the identifiers
collected after it are those of `prior` followed by those collected on a new parser;
under every key the packages and the artifacts are those of `prior` followed by those
indexed on a new parser; so the indexes and the identifiers are those of a new parser
when `prior` holds none. -/
theorem Parse_appends_to_prior_records (env : Env Pkg SBOM) (prior : cyclonedxParser Pkg)
    (doc : Document) :
    (Parse env prior doc).2 = (Parse env NewCycloneDXParser doc).2 ∧
    (GetIdentifiers (Parse env prior doc).1).PurlStrings =
      (GetIdentifiers prior).PurlStrings ++
        (GetIdentifiers (Parse env NewCycloneDXParser doc).1).PurlStrings ∧
    (∀ k, mapLookup (Parse env prior doc).1.packagePackages k =
      appendEntries (mapLookup prior.packagePackages k)
        (mapLookup (Parse env NewCycloneDXParser doc).1.packagePackages k)) ∧
    (∀ k, mapLookup (Parse env prior doc).1.packageArtifacts k =
      appendEntries (mapLookup prior.packageArtifacts k)
        (mapLookup (Parse env NewCycloneDXParser doc).1.packageArtifacts k)) ∧
    ((GetIdentifiers prior).PurlStrings = [] → prior.packagePackages = [] →
      prior.packageArtifacts = [] →
      (GetIdentifiers (Parse env prior doc).1).PurlStrings =
        (GetIdentifiers (Parse env NewCycloneDXParser doc).1).PurlStrings ∧
      (∀ k, mapLookup (Parse env prior doc).1.packagePackages k =
        mapLookup (Parse env NewCycloneDXParser doc).1.packagePackages k) ∧
      (∀ k, mapLookup (Parse env prior doc).1.packageArtifacts k =
        mapLookup (Parse env NewCycloneDXParser doc).1.packageArtifacts k)) := by
  have main : (Parse env prior doc).2 = (Parse env NewCycloneDXParser doc).2 ∧
      (Parse env prior doc).1.identifierStrings.PurlStrings =
        prior.identifierStrings.PurlStrings ++
          (Parse env NewCycloneDXParser doc).1.identifierStrings.PurlStrings ∧
      (∀ k, mapLookup (Parse env prior doc).1.packagePackages k =
        appendEntries (mapLookup prior.packagePackages k)
          (mapLookup (Parse env NewCycloneDXParser doc).1.packagePackages k)) ∧
      (∀ k, mapLookup (Parse env prior doc).1.packageArtifacts k =
        appendEntries (mapLookup prior.packageArtifacts k)
          (mapLookup (Parse env NewCycloneDXParser doc).1.packageArtifacts k)) := by
    rw [Parse_eq env prior doc, Parse_eq env NewCycloneDXParser doc]
    cases parseCycloneDXBOM env doc with
    | error err =>
      exact ⟨rfl, by simp [NewCycloneDXParser],
        fun k => by simp [NewCycloneDXParser, mapLookup, appendEntries_none_right],
        fun k => by simp [NewCycloneDXParser, mapLookup, appendEntries_none_right]⟩
    | ok bom =>
      dsimp only
      obtain ⟨hst, hi, hp, ha⟩ := getTopLevelPackage_appends env bom prior
        { prior with doc := some doc, cdxBom := some bom }
        { (NewCycloneDXParser : cyclonedxParser Pkg) with doc := some doc, cdxBom := some bom }
        (by simp [NewCycloneDXParser])
        (fun k => by simp [NewCycloneDXParser, mapLookup, appendEntries_none_right])
        (fun k => by simp [NewCycloneDXParser, mapLookup, appendEntries_none_right])
      rw [hst]
      by_cases hok : (getTopLevelPackage env
          { (NewCycloneDXParser : cyclonedxParser Pkg) with
              doc := some doc, cdxBom := some bom } bom).2 = Status.ok
      · rw [if_pos hok, if_pos hok]
        unfold getPackages
        cases bom.Components with
        | none => exact ⟨rfl, hi, hp, ha⟩
        | some comps => exact getPackagesLoop_appends env comps prior _ _ hi hp ha
      · rw [if_neg hok, if_neg hok]
        exact ⟨hst, hi, hp, ha⟩
  obtain ⟨hst, hi, hp, ha⟩ := main
  refine ⟨hst, hi, hp, ha, ?_⟩
  intro h1 h2 h3
  refine ⟨?_, ?_, ?_⟩
  · have h1' : prior.identifierStrings.PurlStrings = [] := h1
    show (Parse env prior doc).1.identifierStrings.PurlStrings = _
    rw [hi, h1']
    rfl
  · intro k
    rw [hp k, h2]
    rfl
  · intro k
    rw [ha k, h3]
    rfl

/-- C14, as amended, at a parser that holds the document of another parse and no
record. -/
theorem Parse_appends_to_prior_records_witness :
    (GetIdentifiers
        (Parse (exampleEnv withOSBOM)
          { (NewCycloneDXParser : cyclonedxParser String) with
              doc := some exampleDoc, cdxBom := some emptyBOM } exampleDoc).1).PurlStrings =
      (GetIdentifiers (Parse (exampleEnv withOSBOM) NewCycloneDXParser exampleDoc).1).PurlStrings :=
  ((Parse_appends_to_prior_records (exampleEnv withOSBOM)
      { (NewCycloneDXParser : cyclonedxParser String) with
          doc := some exampleDoc, cdxBom := some emptyBOM } exampleDoc).2.2.2.2 rfl rfl rfl).1

/-- C14, refuted as stated: `Parse` accepts the document with the library `lib` on a
new parser and again on the parser so obtained; after the second call the identifiers
and the records are there twice, and `GetPredicates` returns eight is-occurrence
assertions and two is-dependency assertions where it returned two and one. -/
theorem Parse_twice_doubles_the_records :
    (Parse (exampleEnv withOSBOM) NewCycloneDXParser exampleDoc).2 = Status.ok ∧
    (Parse (exampleEnv withOSBOM)
      (Parse (exampleEnv withOSBOM) NewCycloneDXParser exampleDoc).1 exampleDoc).2 = Status.ok ∧
    (GetIdentifiers (Parse (exampleEnv withOSBOM) NewCycloneDXParser exampleDoc).1).PurlStrings =
      ["pkg:generic/app@2.0", "pkg:generic/lib@1.0"] ∧
    (GetIdentifiers
        (Parse (exampleEnv withOSBOM)
          (Parse (exampleEnv withOSBOM) NewCycloneDXParser exampleDoc).1
          exampleDoc).1).PurlStrings =
      ["pkg:generic/app@2.0", "pkg:generic/lib@1.0", "pkg:generic/app@2.0",
       "pkg:generic/lib@1.0"] ∧
    packagesAt (Parse (exampleEnv withOSBOM) NewCycloneDXParser exampleDoc).1 "lib" =
      ["pkg:generic/lib@1.0"] ∧
    packagesAt
        (Parse (exampleEnv withOSBOM)
          (Parse (exampleEnv withOSBOM) NewCycloneDXParser exampleDoc).1 exampleDoc).1 "lib" =
      ["pkg:generic/lib@1.0", "pkg:generic/lib@1.0"] ∧
    (GetPredicates (exampleEnv withOSBOM) ["top", "lib"] ["top", "lib"]
        (Parse (exampleEnv withOSBOM) NewCycloneDXParser exampleDoc).1).map
      (fun preds => (preds.IsOccurrence.length, preds.IsDependency.length)) = some (2, 1) ∧
    (GetPredicates (exampleEnv withOSBOM) ["top", "lib"] ["top", "lib"]
        (Parse (exampleEnv withOSBOM)
          (Parse (exampleEnv withOSBOM) NewCycloneDXParser exampleDoc).1 exampleDoc).1).map
      (fun preds => (preds.IsOccurrence.length, preds.IsDependency.length)) = some (8, 2) := by
  decide

/-! ## The identifier of a listed component, and injectivity -/

/-- C19, as amended: a component of the list without a declared package URL is given
`guacCDXFilePurl name version` when its type is the file type, as the top-level
component is, and `GuacPkgPurl name version` for every other type, the container type
included; its identifier depends only on whether the type is the file type, on the
name and on the version; and some component that is not an operating system is given
another identifier than `getTopLevelPackage` gives the top-level component of the
same type, name and version. -/
theorem componentPurl_rule (env : Env Pkg SBOM) (comp : Component) (hP : comp.PackageURL = "") :
    componentPurl env comp =
      (if comp.CType = ComponentTypeFile then guacCDXFilePurl env comp.Name comp.Version
       else some (env.GuacPkgPurl comp.Name comp.Version)) ∧
    (comp.CType = ComponentTypeFile → componentPurl env comp = topLevelPurl env comp) ∧
    (∀ other : Component, other.PackageURL = "" →
      (other.CType = ComponentTypeFile ↔ comp.CType = ComponentTypeFile) →
      other.Name = comp.Name → other.Version = comp.Version →
      componentPurl env other = componentPurl env comp) ∧
    (∃ other : Component, other.CType ≠ ComponentTypeOS ∧ other.PackageURL = "" ∧
      componentPurl env other ≠ topLevelPurl env other) := by
  have hrule : ∀ x : Component, x.PackageURL = "" →
      componentPurl env x =
        (if x.CType = ComponentTypeFile then guacCDXFilePurl env x.Name x.Version
         else some (env.GuacPkgPurl x.Name x.Version)) := by
    intro x hx
    unfold componentPurl
    rw [if_pos hx]
  refine ⟨hrule comp hP, ?_, ?_, ?_⟩
  · intro hf
    have hnc : comp.CType ≠ ComponentTypeContainer := by
      rw [hf]; decide
    unfold componentPurl topLevelPurl
    rw [if_pos hP, if_pos hP, if_pos hf, if_neg hnc, if_pos hf]
  · intro other ho hiff hn hv
    rw [hrule other ho, hrule comp hP, hn, hv]
    by_cases hf : comp.CType = ComponentTypeFile
    · rw [if_pos hf, if_pos (hiff.mpr hf)]
    · rw [if_neg hf, if_neg (fun h => hf (hiff.mp h))]
  · by_cases hg : env.GuacPkgPurl "a:b" "" = "pkg:guac/cdx/a:b"
    · refine ⟨{ BOMRef := "c", CType := ComponentTypeContainer, Name := "a:b", Version := "",
                PackageURL := "", Hashes := none }, by decide, rfl, ?_⟩
      have h1 : componentPurl env
          { BOMRef := "c", CType := ComponentTypeContainer, Name := "a:b", Version := "",
            PackageURL := "", Hashes := none } = some (env.GuacPkgPurl "a:b" "") := rfl
      have h2 : topLevelPurl env
          { BOMRef := "c", CType := ComponentTypeContainer, Name := "a:b", Version := "",
            PackageURL := "", Hashes := none } = some "pkg:guac/cdx/a:b?tag=b" := rfl
      rw [h1, h2, hg]
      decide
    · refine ⟨{ BOMRef := "c", CType := "library", Name := "a:b", Version := "",
                PackageURL := "", Hashes := none }, by decide, rfl, ?_⟩
      have h1 : componentPurl env
          { BOMRef := "c", CType := "library", Name := "a:b", Version := "",
            PackageURL := "", Hashes := none } = some (env.GuacPkgPurl "a:b" "") := rfl
      have h2 : topLevelPurl env
          { BOMRef := "c", CType := "library", Name := "a:b", Version := "",
            PackageURL := "", Hashes := none } = some "pkg:guac/cdx/a:b" := rfl
      rw [h1, h2]
      exact fun e => hg (Option.some.inj e)

/-- C19, as amended, at a listed container image. -/
theorem componentPurl_rule_witness :
    componentPurl (exampleEnv emptyBOM)
        { BOMRef := "img", CType := ComponentTypeContainer, Name := "registry.example/org/app:v1",
          Version := "1.0", PackageURL := "", Hashes := none } =
      some "pkg:guac/pkg/registry.example/org/app:v1@1.0" :=
  (componentPurl_rule (exampleEnv emptyBOM)
      { BOMRef := "img", CType := ComponentTypeContainer, Name := "registry.example/org/app:v1",
        Version := "1.0", PackageURL := "", Hashes := none } rfl).1.trans (by decide)

/-- C19, refuted as stated: the container image `registry.example/org/app:v1`, version
`1.0`, without a declared package URL, is given `GuacPkgPurl` of its name and version
as a component of the list, and the identifier of the container rule as the top-level
component. -/
theorem componentPurl_differs_from_topLevelPurl :
    componentPurl (exampleEnv emptyBOM)
        { BOMRef := "img", CType := ComponentTypeContainer, Name := "registry.example/org/app:v1",
          Version := "1.0", PackageURL := "", Hashes := none } =
      some ((exampleEnv emptyBOM).GuacPkgPurl "registry.example/org/app:v1" "1.0") ∧
    topLevelPurl (exampleEnv emptyBOM)
        { BOMRef := "img", CType := ComponentTypeContainer, Name := "registry.example/org/app:v1",
          Version := "1.0", PackageURL := "", Hashes := none } =
      some "pkg:guac/cdx/registry.example/org/app@1.0?tag=v1" ∧
    componentPurl (exampleEnv emptyBOM)
        { BOMRef := "img", CType := ComponentTypeContainer, Name := "registry.example/org/app:v1",
          Version := "1.0", PackageURL := "", Hashes := none } ≠
      topLevelPurl (exampleEnv emptyBOM)
        { BOMRef := "img", CType := ComponentTypeContainer, Name := "registry.example/org/app:v1",
          Version := "1.0", PackageURL := "", Hashes := none } := by
  decide

theorem append_unique (p : Char → Prop) (a b r₁ r₂ : List Char)
    (ha : ∀ x ∈ a, ¬ p x) (hb : ∀ x ∈ b, ¬ p x)
    (h₁ : ∀ x, r₁.head? = some x → p x) (h₂ : ∀ x, r₂.head? = some x → p x)
    (h : a ++ r₁ = b ++ r₂) : a = b ∧ r₁ = r₂ := by
  induction a generalizing b with
  | nil =>
    cases b with
    | nil => exact ⟨rfl, h⟩
    | cons y b' =>
      simp only [List.nil_append, List.cons_append] at h
      exact absurd (h₁ y (by rw [h]; rfl)) (hb y (List.mem_cons_self _ _))
  | cons x a' ih =>
    cases b with
    | nil =>
      simp only [List.nil_append, List.cons_append] at h
      exact absurd (h₂ x (by rw [← h]; rfl)) (ha x (List.mem_cons_self _ _))
    | cons y b' =>
      simp only [List.cons_append, List.cons.injEq] at h
      obtain ⟨hxy, hrest⟩ := h
      obtain ⟨hab, hr⟩ := ih b' (fun z hz => ha z (List.mem_cons_of_mem _ hz))
        (fun z hz => hb z (List.mem_cons_of_mem _ hz)) hrest
      exact ⟨by rw [hxy, hab], hr⟩

theorem tagSuffix_injective (t₁ t₂ : String)
    (h : (if t₁ ≠ "" then "?tag=" ++ t₁ else "").data = (if t₂ ≠ "" then "?tag=" ++ t₂ else "").data) :
    t₁ = t₂ := by
  have hempty : ∀ t : String, t.data = [] → t = "" := fun t ht => String.ext ht
  by_cases h1 : t₁ = "" <;> by_cases h2 : t₂ = ""
  · rw [h1, h2]
  · rw [if_neg (not_not.mpr h1), if_pos h2, String.data_append] at h
    have hd : ("?tag=" : String).data = ['?', 't', 'a', 'g', '='] := rfl
    rw [hd] at h
    exact absurd h (by simp)
  · rw [if_pos h1, if_neg (not_not.mpr h2), String.data_append] at h
    have hd : ("?tag=" : String).data = ['?', 't', 'a', 'g', '='] := rfl
    rw [hd] at h
    exact absurd h (by simp)
  · rw [if_pos h1, if_pos h2, String.data_append, String.data_append] at h
    exact String.ext (List.append_cancel_left h)

theorem tagSuffix_head (t : String) (x : Char)
    (h : (if t ≠ "" then "?tag=" ++ t else "").data.head? = some x) : x = '?' := by
  by_cases ht : t = ""
  · rw [if_neg (not_not.mpr ht)] at h
    exact absurd h (by simp)
  · rw [if_pos ht, String.data_append] at h
    have hd : ("?tag=" : String).data = ['?', 't', 'a', 'g', '='] := rfl
    rw [hd] at h
    simp only [List.cons_append, List.head?_cons, Option.some.injEq] at h
    exact h.symm

theorem versionSuffix_injective (v₁ v₂ t₁ t₂ : String)
    (hv₁ : '?' ∉ v₁.data) (hv₂ : '?' ∉ v₂.data)
    (h : (if v₁ ≠ "" then "@" ++ v₁ else "").data ++ (if t₁ ≠ "" then "?tag=" ++ t₁ else "").data =
      (if v₂ ≠ "" then "@" ++ v₂ else "").data ++ (if t₂ ≠ "" then "?tag=" ++ t₂ else "").data) :
    v₁ = v₂ ∧ t₁ = t₂ := by
  have hat : ("@" : String).data = ['@'] := rfl
  have hnil : ("" : String).data = [] := rfl
  by_cases h1 : v₁ = "" <;> by_cases h2 : v₂ = ""
  · rw [if_neg (not_not.mpr h1), if_neg (not_not.mpr h2), hnil, List.nil_append,
      List.nil_append] at h
    exact ⟨by rw [h1, h2], tagSuffix_injective t₁ t₂ h⟩
  · rw [if_neg (not_not.mpr h1), if_pos h2, hnil, List.nil_append, String.data_append, hat] at h
    have hq := tagSuffix_head t₁ '@' (by rw [h]; rfl)
    exact absurd hq (by decide)
  · rw [if_pos h1, if_neg (not_not.mpr h2), hnil, List.nil_append, String.data_append, hat] at h
    have hq := tagSuffix_head t₂ '@' (by rw [← h]; rfl)
    exact absurd hq (by decide)
  · rw [if_pos h1, if_pos h2, String.data_append, String.data_append, hat] at h
    simp only [List.cons_append, List.nil_append, List.cons.injEq, true_and] at h
    obtain ⟨hv, ht⟩ := append_unique (fun x => x = '?') v₁.data v₂.data _ _
      (fun x hx e => hv₁ (e ▸ hx)) (fun x hx e => hv₂ (e ▸ hx))
      (tagSuffix_head t₁) (tagSuffix_head t₂) h
    exact ⟨String.ext hv, tagSuffix_injective t₁ t₂ ht⟩

theorem suffix_head (v t : String) (x : Char)
    (h : ((if v ≠ "" then "@" ++ v else "").data ++
      (if t ≠ "" then "?tag=" ++ t else "").data).head? = some x) : x = '@' ∨ x = '?' := by
  by_cases hv : v = ""
  · rw [if_neg (not_not.mpr hv)] at h
    have hnil : ("" : String).data = [] := rfl
    rw [hnil, List.nil_append] at h
    exact Or.inr (tagSuffix_head t x h)
  · rw [if_pos hv, String.data_append] at h
    have hat : ("@" : String).data = ['@'] := rfl
    rw [hat] at h
    simp only [List.cons_append, List.head?_cons, Option.some.injEq] at h
    exact Or.inl h.symm

/-- C20: `guacCDXPkgPurl` is injective on the names without `@` and `?` and the
versions without `?`: equal identifiers come from equal names, equal versions and
equal tags. -/
theorem guacCDXPkgPurl_injective (name₁ version₁ tag₁ name₂ version₂ tag₂ : String)
    (hn₁ : '@' ∉ name₁.data ∧ '?' ∉ name₁.data) (hn₂ : '@' ∉ name₂.data ∧ '?' ∉ name₂.data)
    (hv₁ : '?' ∉ version₁.data) (hv₂ : '?' ∉ version₂.data)
    (h : guacCDXPkgPurl name₁ version₁ tag₁ = guacCDXPkgPurl name₂ version₂ tag₂) :
    name₁ = name₂ ∧ version₁ = version₂ ∧ tag₁ = tag₂ := by
  have shape : ∀ n v t : String, (guacCDXPkgPurl n v t).data =
      ("pkg:guac/cdx/" : String).data ++
        (n.data ++ ((if v ≠ "" then "@" ++ v else "").data ++
          (if t ≠ "" then "?tag=" ++ t else "").data)) := by
    intro n v t
    unfold guacCDXPkgPurl
    by_cases hv : v = "" <;> by_cases ht : t = "" <;>
      simp [hv, ht, String.data_append]
  have hdata := congrArg String.data h
  rw [shape, shape] at hdata
  have hrest := List.append_cancel_left hdata
  obtain ⟨hname, hsuffix⟩ := append_unique (fun x => x = '@' ∨ x = '?') name₁.data name₂.data _ _
    (fun x hx e => e.elim (fun e => hn₁.1 (e ▸ hx)) (fun e => hn₁.2 (e ▸ hx)))
    (fun x hx e => e.elim (fun e => hn₂.1 (e ▸ hx)) (fun e => hn₂.2 (e ▸ hx)))
    (suffix_head version₁ tag₁) (suffix_head version₂ tag₂) hrest
  obtain ⟨hversion, htag⟩ := versionSuffix_injective version₁ version₂ tag₁ tag₂ hv₁ hv₂ hsuffix
  exact ⟨String.ext hname, hversion, htag⟩

/-- C20, at two equal identifiers. -/
theorem guacCDXPkgPurl_injective_witness :
    ("registry.example/org/app" : String) = "registry.example/org/app" ∧
      ("1.0" : String) = "1.0" ∧ ("v1" : String) = "v1" :=
  guacCDXPkgPurl_injective "registry.example/org/app" "1.0" "v1" "registry.example/org/app"
    "1.0" "v1" (by decide) (by decide) (by decide) (by decide) rfl

end CycloneDX
